import Mathlib

/-
Shallow embedding of the order-recording / stock-accounting core of the ERP
repository (src/db.py).

Modelling conventions:
- SQLite tables are lists of rows in insertion (rowid) order; `SELECT ... WHERE
  key = ?` is `List.find?` (first matching row), `UPDATE ... WHERE key = ?`
  maps over all matching rows, `INSERT` appends at the end.
- REAL quantities and prices are rationals (ℚ).
- Timestamps are integers (seconds on a UTC timeline).  The stdlib calls
  `datetime.fromisoformat` / `strptime` are external to the repository, so a
  date/timestamp *string* argument is represented by its parse outcome
  (`ClientParse`, `OrderDateParse`); `datetime.utcnow()` is an explicit `now`
  parameter.  An offset-aware datetime with clock value `c` and UTC offset `o`
  denotes the absolute instant `c - o`; `astimezone(utc).replace(tzinfo=None)`
  therefore yields `c - o`, and a naive datetime is kept as its clock value.
- Python `ValueError`s are the constructors of `OrderError`, one per distinct
  message raised by the core.
-/

namespace ERP

structure Product where
  id : Int
  name : String
  unit_price : ℚ
deriving DecidableEq

structure Source where
  id : Int
  name : String
  unit : String
  quantity : ℚ
  last_updated : Int
deriving DecidableEq

structure ProductSource where
  product_id : Int
  source_id : Int
  factor : ℚ
deriving DecidableEq

structure InventoryRecord where
  product_id : Int
  quantity : ℚ
  last_updated : Int
deriving DecidableEq

structure Movement where
  kind : String
  ref_id : Int
  delta : ℚ
  reason : String
  timestamp : Int
  user_id : Option Int
deriving DecidableEq

/-- A parsed client timestamp: `datetime.fromisoformat` yields either an
offset-aware datetime (clock value plus UTC offset, both in seconds) or a
naive one (clock value only). -/
inductive ClientTS where
  | aware (clock : Int) (offset : Int)
  | naive (clock : Int)
deriving DecidableEq

/-- Outcome of `datetime.fromisoformat(client_timestamp)` for a client
timestamp string that was supplied: either it parses or it does not. -/
inductive ClientParse where
  | parsed (t : ClientTS)
  | unparsable
deriving DecidableEq

/-- Outcome of parsing a supplied `order_date` string in `record_order`:
a full ISO datetime — naive (`full`) or carrying a timezone offset
(`fullAware`, clock value plus offset in seconds, as
`datetime.fromisoformat` also accepts aware strings) — a bare `YYYY-MM-DD`
date (represented by the instant of its midnight), or neither. -/
inductive OrderDateParse where
  | full (t : Int)
  | fullAware (clock : Int) (offset : Int)
  | dateOnly (midnight : Int)
  | bad
deriving DecidableEq

/-- One row of the `sales` table as inserted by `record_order` (current
schema: all optional columns present), joined with the product name as in the
returned dict. -/
structure Sale where
  product_id : Int
  product_name : String
  quantity : ℚ
  unit_price : ℚ
  total : ℚ
  payment_method : String
  timestamp : Int
  created_by : Option Int
  bottles_used : Int
  bottle_price : ℚ
  client_timestamp : Option ClientParse
deriving DecidableEq

/-- The committed database state: the tables touched by the core. -/
structure DBState where
  products : List Product
  sources : List Source
  product_sources : List ProductSource
  inventory : List InventoryRecord
  movements : List Movement
  sales : List Sale
deriving DecidableEq

/-- Error kinds of the core: one per distinct `ValueError` message raised in
src/db.py, plus `naiveAwareCompare` for the `TypeError` that
`od_dt > datetime.utcnow()` raises when `od_dt` is offset-aware (an
order_date with a timezone offset is parsed but never normalized, so the
comparison of an aware and a naive datetime crashes; like every exception in
the transaction it is caught, rolled back and re-raised). -/
inductive OrderError where
  | invalidQuantity
  | productNotFound
  | invalidOrderDate
  | futureOrderDate
  | naiveAwareCompare
  | insufficientStock
  | insufficientBottleStock
  | invalidBottlesUsed
deriving DecidableEq

/-- SELECT the first inventory row for a product. -/
def findInv (inv : List InventoryRecord) (p : Int) : Option InventoryRecord :=
  inv.find? (fun r => r.product_id == p)

/-- SELECT the first source row with a given id. -/
def findSrc (srcs : List Source) (sid : Int) : Option Source :=
  srcs.find? (fun s => s.id == sid)

/-- SELECT the first product row with a given id. -/
def findProd (ps : List Product) (pid : Int) : Option Product :=
  ps.find? (fun p => p.id == pid)

/-- SELECT the product-source mapping row for a product. -/
def findMap (ms : List ProductSource) (pid : Int) : Option ProductSource :=
  ms.find? (fun m => m.product_id == pid)

/-- Stored inventory quantity for a product as an optional value. -/
def invQtyOptL (inv : List InventoryRecord) (p : Int) : Option ℚ :=
  (findInv inv p).map (fun r => r.quantity)

/-- Inventory quantity with a missing row counted as 0, as in
`float(irow[0]) if irow is not None else 0.0`. -/
def invQtyD (inv : List InventoryRecord) (p : Int) : ℚ :=
  (invQtyOptL inv p).getD 0

/-- Stored source quantity as an optional value. -/
def srcQtyOptL (srcs : List Source) (sid : Int) : Option ℚ :=
  (findSrc srcs sid).map (fun s => s.quantity)

/-- Source quantity with a missing row counted as 0. -/
def srcQtyD (srcs : List Source) (sid : Int) : ℚ :=
  (srcQtyOptL srcs sid).getD 0

/-- UPDATE inventory SET quantity, last_updated WHERE product_id = pid. -/
def updInv (inv : List InventoryRecord) (pid : Int) (q : ℚ) (now : Int) :
    List InventoryRecord :=
  inv.map (fun r => if r.product_id == pid then ⟨r.product_id, q, now⟩ else r)

/-- UPDATE sources SET quantity, last_updated WHERE id = sid. -/
def updSrcQty (srcs : List Source) (sid : Int) (q : ℚ) (now : Int) : List Source :=
  srcs.map (fun s => if s.id == sid then ⟨s.id, s.name, s.unit, q, now⟩ else s)

/-- The read-then-INSERT-or-UPDATE pattern on the inventory table used
throughout src/db.py. -/
def upsertInv (inv : List InventoryRecord) (pid : Int) (q : ℚ) (now : Int) :
    List InventoryRecord :=
  match findInv inv pid with
  | none => inv ++ [⟨pid, q, now⟩]
  | some _ => updInv inv pid q now

/-- Python `int()` truncation toward zero on a rational. -/
def ratTrunc (q : ℚ) : Int :=
  if q < 0 then ⌈q⌉ else ⌊q⌋

/-- The bottle-count computation
`int(quantity) if float(quantity).is_integer() else math.ceil(quantity)`. -/
def pyCeil (q : ℚ) : Int :=
  if q.den = 1 then q.num else ⌈q⌉

/-- Whether the second character list is an initial segment of the first. -/
def charListStarts : List Char → List Char → Bool
  | _, [] => true
  | [], _ :: _ => false
  | c :: cs, d :: ds => c == d && charListStarts cs ds

/-- Whether the second character list occurs contiguously in the first. -/
def charListHasInfix : List Char → List Char → Bool
  | [], pat => pat.isEmpty
  | c :: cs, pat => charListStarts (c :: cs) pat || charListHasInfix cs pat

/-- SQLite `name LIKE '%Empty%'` (LIKE is ASCII case-insensitive, so both the
name and the pattern are compared lowercased). -/
def likeEmpty (name : String) : Bool :=
  charListHasInfix (name.data.map Char.toLower) ("Empty".data.map Char.toLower)

/-- Value of `datetime.fromisoformat` on a parsed client timestamp after the
normalisation in record_order: offset-aware values are converted to UTC,
naive values are kept as-is. -/
def clientUtc : ClientTS → Int
  | .aware c o => c - o
  | .naive c => c

/-- The client-timestamp branch of record_order: `od_dt` after trying
`client_timestamp` (None when absent or unparsable). -/
def parseClientTS : Option ClientParse → Option Int
  | some (.parsed t) => some (clientUtc t)
  | _ => none

def secondsPerDay : Int := 86400

/-- The datetime value record_order holds in `od_dt`: the client-timestamp
branch always normalizes to a naive value, while a full order-date parse
keeps whatever tzinfo `fromisoformat` produced — naive or offset-aware. -/
inductive TsCandidate where
  | naiveTs (t : Int)
  | awareTs (clock : Int) (offset : Int)
deriving DecidableEq

/-- Candidate `od_dt` of record_order before the future check: client
timestamp first (normalized, hence naive), then order_date as a full
datetime (naive or aware, as parsed), then as a bare date combined with the
current time of day; a supplied but unparsable order_date raises the
order-date ValueError. -/
def candidateTs (cts : Option ClientParse) (od : Option OrderDateParse)
    (now : Int) : Except OrderError (Option TsCandidate) :=
  match parseClientTS cts with
  | some t => .ok (some (.naiveTs t))
  | none =>
    match od with
    | none => .ok none
    | some (.full t) => .ok (some (.naiveTs t))
    | some (.fullAware c o) => .ok (some (.awareTs c o))
    | some (.dateOnly mid) => .ok (some (.naiveTs (mid + now % secondsPerDay)))
    | some .bad => .error .invalidOrderDate

/-- Timestamp resolution of record_order: a naive candidate strictly later
than server time fails with the future-date ValueError; an offset-aware
candidate (only possible from an aware order_date) makes the comparison
`od_dt > datetime.utcnow()` itself raise TypeError, past or future alike;
no candidate falls back to server time. -/
def resolveTimestamp (cts : Option ClientParse) (od : Option OrderDateParse)
    (now : Int) : Except OrderError Int :=
  match candidateTs cts od now with
  | .error e => .error e
  | .ok none => .ok now
  | .ok (some (.naiveTs t)) =>
    if now < t then .error .futureOrderDate else .ok t
  | .ok (some (.awareTs _ _)) => .error .naiveAwareCompare

/-- Bottle count used for the container surcharge:
`int(bottles_used)` when given, else the pyCeil of the quantity. -/
def bottlesCountOf (bottles_used : Option Int) (qty : ℚ) : Int :=
  match bottles_used with
  | some b => b
  | none => pyCeil qty

/-- Container-product lookup by the factor-derived name
`Empty <int(factor)>L bottle` of the resolved source mapping. -/
def bottleByFactorName (ps : List Product) (mapping : Option ProductSource) :
    Option Int :=
  match mapping with
  | some m =>
    (ps.find? (fun p =>
      p.name == "Empty " ++ toString (ratTrunc m.factor) ++ "L bottle")).map
      (fun p => p.id)
  | none => none

/-- Container-product lookup of record_order: the product named after the
mapping factor when one matches, else the first product whose name matches
LIKE `%Empty%`. -/
def resolveBottlePid (ps : List Product) (mapping : Option ProductSource) :
    Option Int :=
  match bottleByFactorName ps mapping with
  | some b => some b
  | none => (ps.find? (fun p => likeEmpty p.name)).map (fun p => p.id)

/-- Stock adjustment of record_order: decrement the mapped source by
`quantity * factor`, or fall back to the product's direct inventory, with the
non-negative check, and append the audit movement. -/
def stockStep (st : DBState) (pid : Int) (qty : ℚ)
    (mapping : Option ProductSource) (now : Int) (cb : Option Int) :
    Except OrderError DBState :=
  match mapping with
  | some m =>
    if srcQtyD st.sources m.source_id - qty * m.factor < 0 then
      .error .insufficientStock
    else
      .ok ⟨st.products,
        updSrcQty st.sources m.source_id
          (srcQtyD st.sources m.source_id - qty * m.factor) now,
        st.product_sources, st.inventory,
        st.movements ++
          [⟨"source", m.source_id, -(qty * m.factor),
            "order:" ++ toString pid, now, cb⟩],
        st.sales⟩
  | none =>
    if invQtyD st.inventory pid - qty < 0 then
      .error .insufficientStock
    else
      .ok ⟨st.products, st.sources, st.product_sources,
        upsertInv st.inventory pid (invQtyD st.inventory pid - qty) now,
        st.movements ++
          [⟨"inventory", pid, -qty, "order:" ++ toString pid, now, cb⟩],
        st.sales⟩

/-- Container consumption of record_order once a bottle count is fixed: when
the count is positive and a container product resolves, decrement its direct
inventory with the non-negative check and append the audit movement; when no
container product resolves the count is kept but nothing is consumed.  (The
source caches the looked-up bottle product id from the derivation branch and
re-runs the identical products query otherwise; the products table is
unchanged inside the transaction, so both reads are this one pure lookup.) -/
def consumeBottles (st : DBState) (pid : Int) (btc : Option Int)
    (mapping : Option ProductSource) (now : Int) (cb : Option Int) :
    Except OrderError (DBState × Option Int) :=
  match btc with
  | some n =>
    if 0 < n then
      match resolveBottlePid st.products mapping with
      | none => .ok (st, some n)
      | some b =>
        if invQtyD st.inventory b - (n : ℚ) < 0 then
          .error .insufficientBottleStock
        else
          .ok (⟨st.products, st.sources, st.product_sources,
            upsertInv st.inventory b (invQtyD st.inventory b - (n : ℚ)) now,
            st.movements ++
              [⟨"inventory", b, -(n : ℚ),
                "order_bottle:" ++ toString pid, now, cb⟩],
            st.sales⟩, some n)
    else .ok (st, some n)
  | none => .ok (st, none)

/-- Bottle-count resolution and consumption of record_order: an explicit
`bottles_used` takes priority (negative is rejected); otherwise, when
`use_bottle` is set and a container product resolves, the count is derived
from the quantity. -/
def bottleStep (st : DBState) (pid : Int) (qty : ℚ)
    (mapping : Option ProductSource) (use_bottle : Bool)
    (bottles_used : Option Int) (now : Int) (cb : Option Int) :
    Except OrderError (DBState × Option Int) :=
  match bottles_used with
  | some b =>
    if b < 0 then .error .invalidBottlesUsed
    else consumeBottles st pid (some b) mapping now cb
  | none =>
    if use_bottle then
      match resolveBottlePid st.products mapping with
      | some _ => consumeBottles st pid (some (pyCeil qty)) mapping now cb
      | none => .ok (st, none)
    else .ok (st, none)

/-- Body of the record_order transaction (everything between BEGIN and
COMMIT): price resolution, container surcharge, timestamp resolution, stock
decrement, container consumption, and the sale insert. -/
def recordOrderTx (st : DBState) (product_id : Int) (quantity : ℚ)
    (payment_method : String) (order_date : Option OrderDateParse)
    (created_by : Option Int) (use_bottle : Bool) (bottles_used : Option Int)
    (bottle_price : ℚ) (client_timestamp : Option ClientParse) (now : Int) :
    Except OrderError (DBState × Sale) :=
  match findProd st.products product_id with
  | none => .error .productNotFound
  | some prod =>
    match resolveTimestamp client_timestamp order_date now with
    | .error e => .error e
    | .ok ts =>
      match stockStep st product_id quantity
          (findMap st.product_sources product_id) now created_by with
      | .error e => .error e
      | .ok st1 =>
        match bottleStep st1 product_id quantity
            (findMap st.product_sources product_id) use_bottle bottles_used
            now created_by with
        | .error e => .error e
        | .ok (st2, btc) =>
          .ok (⟨st2.products, st2.sources, st2.product_sources, st2.inventory,
            st2.movements,
            st2.sales ++
              [⟨product_id, prod.name, quantity, prod.unit_price,
                (if use_bottle ∧ 0 < bottle_price then
                  prod.unit_price * quantity +
                    bottle_price * ((bottlesCountOf bottles_used quantity : Int) : ℚ)
                else prod.unit_price * quantity),
                payment_method, ts, created_by, btc.getD 0,
                (if use_bottle then bottle_price else 0), client_timestamp⟩]⟩,
            ⟨product_id, prod.name, quantity, prod.unit_price,
              (if use_bottle ∧ 0 < bottle_price then
                prod.unit_price * quantity +
                  bottle_price * ((bottlesCountOf bottles_used quantity : Int) : ℚ)
              else prod.unit_price * quantity),
              payment_method, ts, created_by, btc.getD 0,
              (if use_bottle then bottle_price else 0), client_timestamp⟩)

/-- record_order of src/db.py: the quantity guard, then the transaction; an
exception rolls the transaction back, so the committed state on any error is
the initial state. -/
def record_order (st : DBState) (product_id : Int) (quantity : ℚ)
    (payment_method : String) (order_date : Option OrderDateParse)
    (created_by : Option Int) (use_bottle : Bool) (bottles_used : Option Int)
    (bottle_price : ℚ) (client_timestamp : Option ClientParse) (now : Int) :
    DBState × Except OrderError Sale :=
  if quantity ≤ 0 then (st, .error .invalidQuantity)
  else
    match recordOrderTx st product_id quantity payment_method order_date
        created_by use_bottle bottles_used bottle_price client_timestamp now with
    | .ok (st2, sale) => (st2, .ok sale)
    | .error e => (st, .error e)

/-- adjust_inventory of src/db.py. -/
def adjust_inventory (st : DBState) (pid : Int) (delta : ℚ) (now : Int) :
    DBState × Except OrderError ℚ :=
  match findInv st.inventory pid with
  | none =>
    if delta < 0 then (st, .error .insufficientStock)
    else
      (⟨st.products, st.sources, st.product_sources,
        st.inventory ++ [⟨pid, delta, now⟩], st.movements, st.sales⟩, .ok delta)
  | some r =>
    if r.quantity + delta < 0 then (st, .error .insufficientStock)
    else
      (⟨st.products, st.sources, st.product_sources,
        updInv st.inventory pid (r.quantity + delta) now, st.movements,
        st.sales⟩, .ok (r.quantity + delta))

/-- adjust_source_quantity of src/db.py. -/
def adjust_source_quantity (st : DBState) (sid : Int) (delta : ℚ) (now : Int) :
    DBState × Except OrderError ℚ :=
  match findSrc st.sources sid with
  | none =>
    if delta < 0 then (st, .error .insufficientStock)
    else
      (⟨st.products, st.sources ++ [⟨sid, "source", "L", delta, now⟩],
        st.product_sources, st.inventory, st.movements, st.sales⟩, .ok delta)
  | some s =>
    if s.quantity + delta < 0 then (st, .error .insufficientStock)
    else
      (⟨st.products, updSrcQty st.sources sid (s.quantity + delta) now,
        st.product_sources, st.inventory, st.movements, st.sales⟩,
        .ok (s.quantity + delta))

/-- set_inventory of src/db.py: unchecked upsert of the given quantity. -/
def set_inventory (st : DBState) (pid : Int) (q : ℚ) (now : Int) :
    DBState × InventoryRecord :=
  (⟨st.products, st.sources, st.product_sources,
    upsertInv st.inventory pid q now, st.movements, st.sales⟩, ⟨pid, q, now⟩)

/-- update_source of src/db.py: unchecked field updates; with no field given
the state is unchanged. -/
def update_source (st : DBState) (sid : Int) (name : Option String)
    (unit : Option String) (q : Option ℚ) (now : Int) :
    DBState × Option Source :=
  if name = none ∧ unit = none ∧ q = none then (st, findSrc st.sources sid)
  else
    (⟨st.products,
      st.sources.map (fun s =>
        if s.id == sid then
          ⟨s.id, name.getD s.name, unit.getD s.unit, q.getD s.quantity, now⟩
        else s),
      st.product_sources, st.inventory, st.movements, st.sales⟩,
      findSrc (st.sources.map (fun s =>
        if s.id == sid then
          ⟨s.id, name.getD s.name, unit.getD s.unit, q.getD s.quantity, now⟩
        else s)) sid)

/-- Fresh id for an INSERT (sqlite lastrowid). -/
def nextSourceId (srcs : List Source) : Int :=
  (srcs.map (fun s => s.id)).foldl max 0 + 1

/-- add_source of src/db.py: unchecked insert of the given quantity. -/
def add_source (st : DBState) (name : String) (unit : String) (q : ℚ)
    (now : Int) : DBState × Source :=
  (⟨st.products, st.sources ++ [⟨nextSourceId st.sources, name, unit, q, now⟩],
    st.product_sources, st.inventory, st.movements, st.sales⟩,
    ⟨nextSourceId st.sources, name, unit, q, now⟩)

/-- All committed quantities in both stock pools are non-negative. -/
def nonnegState (st : DBState) : Prop :=
  (∀ s ∈ st.sources, 0 ≤ s.quantity) ∧ (∀ r ∈ st.inventory, 0 ≤ r.quantity)

/-- The audit movement the stock step of record_order appends. -/
def expectedStockMv (pid : Int) (qty : ℚ) (mapping : Option ProductSource)
    (now : Int) (cb : Option Int) : Movement :=
  match mapping with
  | some m =>
    ⟨"source", m.source_id, -(qty * m.factor), "order:" ++ toString pid, now, cb⟩
  | none => ⟨"inventory", pid, -qty, "order:" ++ toString pid, now, cb⟩

/-- Net signed delta recorded in a movement list against one pool entry. -/
def movementSum (k : String) (rid : Int) (mvs : List Movement) : ℚ :=
  ((mvs.filter (fun mv => mv.kind == k && mv.ref_id == rid)).map
    (fun mv => mv.delta)).sum

/-- Concrete state for the C1 witness: the seeded 5L-water/Main-Tank setup. -/
def stC1 : DBState :=
  ⟨[⟨1, "5L water", 40⟩], [⟨1, "Main Tank", "L", 9000, 0⟩], [⟨1, 1, 5⟩],
    [], [], []⟩

/-- Concrete state for C2: one product, nothing else. -/
def stC2 : DBState := ⟨[⟨1, "5L water", 40⟩], [], [], [], [], []⟩

/-- Concrete state for C3: the spec scenario tank at 8990 L. -/
def stC3 : DBState :=
  ⟨[⟨1, "5L water", 40⟩], [⟨1, "Main Tank", "L", 8990, 0⟩], [⟨1, 1, 5⟩],
    [], [], []⟩

/-- Concrete state for C4: one inventory row and one source row. -/
def stC4 : DBState :=
  ⟨[⟨1, "5L water", 40⟩], [⟨1, "Main Tank", "L", 100, 0⟩], [],
    [⟨1, 7, 0⟩], [], []⟩

/-- Concrete state for C5: the spec scenario, tank at 9000 L. -/
def stC5 : DBState :=
  ⟨[⟨1, "5L water", 40⟩], [⟨1, "Main Tank", "L", 9000, 0⟩], [⟨1, 1, 5⟩],
    [], [], []⟩

/-- Concrete state for C7: a product with ample direct inventory. -/
def stC7 : DBState :=
  ⟨[⟨1, "5L water", 40⟩], [], [], [⟨1, 100, 0⟩], [], []⟩

/-- Concrete state for the C8 counterexample: inventory-backed product, no
product whose name matches the container pattern. -/
def stC8 : DBState :=
  ⟨[⟨1, "5L water", 40⟩], [], [], [⟨1, 100, 0⟩], [], []⟩

/-- Concrete state for the C8 witness: a mapped product plus the factor-named
empty-bottle product with bottle inventory. -/
def stC8b : DBState :=
  ⟨[⟨1, "5L water", 40⟩, ⟨2, "Empty 5L bottle", 0⟩],
    [⟨1, "Main Tank", "L", 9000, 0⟩], [⟨1, 1, 5⟩], [⟨2, 120, 0⟩], [], []⟩

/-- Concrete state for C10: a mapped product with ample stock. -/
def stC10 : DBState :=
  ⟨[⟨1, "5L water", 40⟩], [⟨1, "Main Tank", "L", 9000, 0⟩], [⟨1, 1, 5⟩],
    [], [], []⟩

theorem find?_map_key {A : Type} (f : A → A) (pr : A → Bool)
    (hf : ∀ a, pr (f a) = pr a) (l : List A) :
    (l.map f).find? pr = (l.find? pr).map f := by
  induction l with
  | nil => rfl
  | cons a l ih =>
    simp only [List.map_cons, List.find?]
    rw [hf a]
    cases h : pr a <;> simp [h, ih]

theorem findInv_some_key (inv : List InventoryRecord) (p : Int)
    (r : InventoryRecord) (h : findInv inv p = some r) :
    (r.product_id == p) = true := by
  have h2 : inv.find? (fun x => x.product_id == p) = some r := h
  have h3 := List.find?_some h2
  exact h3

theorem findSrc_some_key (srcs : List Source) (sid : Int) (s : Source)
    (h : findSrc srcs sid = some s) : (s.id == sid) = true := by
  have h2 : srcs.find? (fun x => x.id == sid) = some s := h
  have h3 := List.find?_some h2
  exact h3

theorem findInv_updInv (inv : List InventoryRecord) (pid : Int) (q : ℚ)
    (now p : Int) :
    findInv (updInv inv pid q now) p =
      (findInv inv p).map
        (fun r => if r.product_id == pid then ⟨r.product_id, q, now⟩ else r) := by
  unfold findInv updInv
  apply find?_map_key
  intro a
  by_cases hc : (a.product_id == pid) = true
  · rw [if_pos hc]
  · rw [if_neg hc]

theorem findSrc_updSrcQty (srcs : List Source) (sid : Int) (q : ℚ)
    (now sid2 : Int) :
    findSrc (updSrcQty srcs sid q now) sid2 =
      (findSrc srcs sid2).map
        (fun s => if s.id == sid then ⟨s.id, s.name, s.unit, q, now⟩ else s) := by
  unfold findSrc updSrcQty
  apply find?_map_key
  intro a
  by_cases hc : (a.id == sid) = true
  · rw [if_pos hc]
  · rw [if_neg hc]

theorem invQtyOptL_updInv_self (inv : List InventoryRecord) (pid : Int) (q : ℚ)
    (now : Int) :
    invQtyOptL (updInv inv pid q now) pid = (invQtyOptL inv pid).map fun _ => q := by
  unfold invQtyOptL
  rw [findInv_updInv]
  cases h : findInv inv pid with
  | none => rfl
  | some r =>
    have hr : r.product_id = pid := by simpa using findInv_some_key inv pid r h
    simp [hr]

theorem invQtyOptL_updInv_ne (inv : List InventoryRecord) (pid : Int) (q : ℚ)
    (now p : Int) (hne : p ≠ pid) :
    invQtyOptL (updInv inv pid q now) p = invQtyOptL inv p := by
  unfold invQtyOptL
  rw [findInv_updInv]
  cases h : findInv inv p with
  | none => rfl
  | some r =>
    have hrp : r.product_id = p := by simpa using findInv_some_key inv p r h
    have hf : r.product_id ≠ pid := by rw [hrp]; exact hne
    simp [hf]

theorem srcQtyOptL_upd_self (srcs : List Source) (sid : Int) (q : ℚ)
    (now : Int) :
    srcQtyOptL (updSrcQty srcs sid q now) sid =
      (srcQtyOptL srcs sid).map fun _ => q := by
  unfold srcQtyOptL
  rw [findSrc_updSrcQty]
  cases h : findSrc srcs sid with
  | none => rfl
  | some s =>
    have hs : s.id = sid := by simpa using findSrc_some_key srcs sid s h
    simp [hs]

theorem srcQtyOptL_upd_ne (srcs : List Source) (sid : Int) (q : ℚ)
    (now sid2 : Int) (hne : sid2 ≠ sid) :
    srcQtyOptL (updSrcQty srcs sid q now) sid2 = srcQtyOptL srcs sid2 := by
  unfold srcQtyOptL
  rw [findSrc_updSrcQty]
  cases h : findSrc srcs sid2 with
  | none => rfl
  | some s =>
    have hsp : s.id = sid2 := by simpa using findSrc_some_key srcs sid2 s h
    have hf : s.id ≠ sid := by rw [hsp]; exact hne
    simp [hf]

theorem findInv_append_single (inv : List InventoryRecord) (x : InventoryRecord)
    (p : Int) (h : findInv inv p = none) :
    findInv (inv ++ [x]) p = if x.product_id == p then some x else none := by
  have h2 : inv.find? (fun r => r.product_id == p) = none := h
  show (inv ++ [x]).find? (fun r => r.product_id == p) = _
  rw [List.find?_append, h2]
  cases hx : (x.product_id == p) <;> simp [List.find?, hx]

theorem findInv_append_of_found (inv : List InventoryRecord)
    (x r : InventoryRecord) (p : Int) (h : findInv inv p = some r) :
    findInv (inv ++ [x]) p = some r := by
  have h2 : inv.find? (fun y => y.product_id == p) = some r := h
  show (inv ++ [x]).find? (fun y => y.product_id == p) = _
  rw [List.find?_append, h2]
  rfl

theorem invQtyOptL_upsert_self (inv : List InventoryRecord) (pid : Int) (q : ℚ)
    (now : Int) :
    invQtyOptL (upsertInv inv pid q now) pid = some q := by
  unfold upsertInv
  cases h : findInv inv pid with
  | none =>
    unfold invQtyOptL
    rw [findInv_append_single inv _ pid h]
    simp
  | some r =>
    rw [invQtyOptL_updInv_self]
    unfold invQtyOptL
    rw [h]
    rfl

theorem invQtyOptL_upsert_ne (inv : List InventoryRecord) (pid : Int) (q : ℚ)
    (now p : Int) (hne : p ≠ pid) :
    invQtyOptL (upsertInv inv pid q now) p = invQtyOptL inv p := by
  unfold upsertInv
  cases h : findInv inv pid with
  | none =>
    unfold invQtyOptL
    cases hp : findInv inv p with
    | none =>
      rw [findInv_append_single inv _ p hp]
      have hf : ((pid : Int) == p) = false := by
        simp [beq_eq_false_iff_ne]
        exact fun he => hne he.symm
      simp [hf]
    | some r =>
      rw [findInv_append_of_found inv _ r p hp]
  | some r => exact invQtyOptL_updInv_ne inv pid q now p hne

theorem invQtyD_upsert_self (inv : List InventoryRecord) (pid : Int) (q : ℚ)
    (now : Int) : invQtyD (upsertInv inv pid q now) pid = q := by
  unfold invQtyD
  rw [invQtyOptL_upsert_self]
  rfl

theorem invQtyD_upsert_ne (inv : List InventoryRecord) (pid : Int) (q : ℚ)
    (now p : Int) (hne : p ≠ pid) :
    invQtyD (upsertInv inv pid q now) p = invQtyD inv p := by
  unfold invQtyD
  rw [invQtyOptL_upsert_ne inv pid q now p hne]

theorem movementSum_nil (k : String) (rid : Int) : movementSum k rid [] = 0 := rfl

theorem movementSum_cons (k : String) (rid : Int) (mv : Movement)
    (l : List Movement) :
    movementSum k rid (mv :: l) =
      (if (mv.kind == k && mv.ref_id == rid) = true then mv.delta else 0) +
        movementSum k rid l := by
  unfold movementSum
  cases h : (mv.kind == k && mv.ref_id == rid) <;>
    simp [List.filter_cons, h]

theorem map_add_zero_q (o : Option ℚ) : o.map (fun q => q + 0) = o := by
  cases o <;> simp

theorem nonnegInv_updInv (inv : List InventoryRecord) (pid : Int) (q : ℚ)
    (now : Int) (h : ∀ r ∈ inv, 0 ≤ r.quantity) (hq : 0 ≤ q) :
    ∀ r ∈ updInv inv pid q now, 0 ≤ r.quantity := by
  intro r hr
  unfold updInv at hr
  obtain ⟨a, ha, hfa⟩ := List.mem_map.1 hr
  rw [← hfa]
  by_cases hc : (a.product_id == pid) = true
  · rw [if_pos hc]
    exact hq
  · rw [if_neg hc]
    exact h a ha

theorem nonnegInv_append_single (inv : List InventoryRecord)
    (x : InventoryRecord) (h : ∀ r ∈ inv, 0 ≤ r.quantity)
    (hx : 0 ≤ x.quantity) : ∀ r ∈ inv ++ [x], 0 ≤ r.quantity := by
  intro r hr
  rcases List.mem_append.1 hr with h1 | h1
  · exact h r h1
  · rcases List.mem_singleton.1 h1 with rfl
    exact hx

theorem nonnegInv_upsert (inv : List InventoryRecord) (pid : Int) (q : ℚ)
    (now : Int) (h : ∀ r ∈ inv, 0 ≤ r.quantity) (hq : 0 ≤ q) :
    ∀ r ∈ upsertInv inv pid q now, 0 ≤ r.quantity := by
  unfold upsertInv
  cases findInv inv pid with
  | none => exact nonnegInv_append_single inv _ h hq
  | some r => exact nonnegInv_updInv inv pid q now h hq

theorem nonnegSrc_updSrcQty (srcs : List Source) (sid : Int) (q : ℚ)
    (now : Int) (h : ∀ s ∈ srcs, 0 ≤ s.quantity) (hq : 0 ≤ q) :
    ∀ s ∈ updSrcQty srcs sid q now, 0 ≤ s.quantity := by
  intro s hs
  unfold updSrcQty at hs
  obtain ⟨a, ha, hfa⟩ := List.mem_map.1 hs
  rw [← hfa]
  by_cases hc : (a.id == sid) = true
  · rw [if_pos hc]
    exact hq
  · rw [if_neg hc]
    exact h a ha

theorem nonnegSrc_append_single (srcs : List Source) (x : Source)
    (h : ∀ s ∈ srcs, 0 ≤ s.quantity) (hx : 0 ≤ x.quantity) :
    ∀ s ∈ srcs ++ [x], 0 ≤ s.quantity := by
  intro s hs
  rcases List.mem_append.1 hs with h1 | h1
  · exact h s h1
  · rcases List.mem_singleton.1 h1 with rfl
    exact hx

theorem stockStep_ok_some (st : DBState) (pid : Int) (qty : ℚ)
    (m : ProductSource) (now : Int) (cb : Option Int) (st2 : DBState)
    (h : stockStep st pid qty (some m) now cb = .ok st2) :
    0 ≤ srcQtyD st.sources m.source_id - qty * m.factor ∧
    st2 = ⟨st.products,
      updSrcQty st.sources m.source_id
        (srcQtyD st.sources m.source_id - qty * m.factor) now,
      st.product_sources, st.inventory,
      st.movements ++
        [⟨"source", m.source_id, -(qty * m.factor),
          "order:" ++ toString pid, now, cb⟩],
      st.sales⟩ := by
  simp only [stockStep] at h
  split at h
  · exact Except.noConfusion h
  · rename_i hge
    refine ⟨not_lt.1 hge, ?_⟩
    injection h with h2
    exact h2.symm

theorem stockStep_ok_none (st : DBState) (pid : Int) (qty : ℚ) (now : Int)
    (cb : Option Int) (st2 : DBState)
    (h : stockStep st pid qty none now cb = .ok st2) :
    0 ≤ invQtyD st.inventory pid - qty ∧
    st2 = ⟨st.products, st.sources, st.product_sources,
      upsertInv st.inventory pid (invQtyD st.inventory pid - qty) now,
      st.movements ++
        [⟨"inventory", pid, -qty, "order:" ++ toString pid, now, cb⟩],
      st.sales⟩ := by
  simp only [stockStep] at h
  split at h
  · exact Except.noConfusion h
  · rename_i hge
    refine ⟨not_lt.1 hge, ?_⟩
    injection h with h2
    exact h2.symm

theorem stockStep_error (st : DBState) (pid : Int) (qty : ℚ)
    (mp : Option ProductSource) (now : Int) (cb : Option Int) (e : OrderError)
    (h : stockStep st pid qty mp now cb = .error e) : e = .insufficientStock := by
  cases mp with
  | some m =>
    simp only [stockStep] at h
    split at h
    · injection h with h2
      exact h2.symm
    · exact Except.noConfusion h
  | none =>
    simp only [stockStep] at h
    split at h
    · injection h with h2
      exact h2.symm
    · exact Except.noConfusion h

theorem consumeBottles_ok (st : DBState) (pid : Int) (btc : Option Int)
    (mp : Option ProductSource) (now : Int) (cb : Option Int) (st2 : DBState)
    (btc2 : Option Int)
    (h : consumeBottles st pid btc mp now cb = .ok (st2, btc2)) :
    btc2 = btc ∧
    (st2 = st ∨
      ∃ b n, btc = some n ∧ 0 < n ∧
        resolveBottlePid st.products mp = some b ∧
        0 ≤ invQtyD st.inventory b - (n : ℚ) ∧
        st2 = ⟨st.products, st.sources, st.product_sources,
          upsertInv st.inventory b (invQtyD st.inventory b - (n : ℚ)) now,
          st.movements ++
            [⟨"inventory", b, -(n : ℚ),
              "order_bottle:" ++ toString pid, now, cb⟩],
          st.sales⟩) := by
  cases btc with
  | none =>
    simp only [consumeBottles] at h
    injection h with h2
    injection h2 with ha hb
    exact ⟨hb.symm, Or.inl ha.symm⟩
  | some n =>
    simp only [consumeBottles] at h
    split at h
    · rename_i hn
      split at h
      · rename_i hres
        injection h with h2
        injection h2 with ha hb
        exact ⟨hb.symm, Or.inl ha.symm⟩
      · rename_i b hres
        split at h
        · exact Except.noConfusion h
        · rename_i hge
          injection h with h2
          injection h2 with ha hb
          exact ⟨hb.symm,
            Or.inr ⟨b, n, rfl, hn, hres, not_lt.1 hge, ha.symm⟩⟩
    · rename_i hn
      injection h with h2
      injection h2 with ha hb
      exact ⟨hb.symm, Or.inl ha.symm⟩

theorem consumeBottles_error (st : DBState) (pid : Int) (btc : Option Int)
    (mp : Option ProductSource) (now : Int) (cb : Option Int) (e : OrderError)
    (h : consumeBottles st pid btc mp now cb = .error e) :
    e = .insufficientBottleStock := by
  cases btc with
  | none =>
    simp only [consumeBottles] at h
    exact Except.noConfusion h
  | some n =>
    simp only [consumeBottles] at h
    split at h
    · split at h
      · exact Except.noConfusion h
      · split at h
        · injection h with h2
          exact h2.symm
        · exact Except.noConfusion h
    · exact Except.noConfusion h

theorem bottleStep_ok (st : DBState) (pid : Int) (qty : ℚ)
    (mp : Option ProductSource) (ub : Bool) (bu : Option Int) (now : Int)
    (cb : Option Int) (st2 : DBState) (btc : Option Int)
    (h : bottleStep st pid qty mp ub bu now cb = .ok (st2, btc)) :
    st2 = st ∨
      ∃ b n, 0 < n ∧ btc = some n ∧
        resolveBottlePid st.products mp = some b ∧
        0 ≤ invQtyD st.inventory b - (n : ℚ) ∧
        st2 = ⟨st.products, st.sources, st.product_sources,
          upsertInv st.inventory b (invQtyD st.inventory b - (n : ℚ)) now,
          st.movements ++
            [⟨"inventory", b, -(n : ℚ),
              "order_bottle:" ++ toString pid, now, cb⟩],
          st.sales⟩ := by
  cases bu with
  | some b0 =>
    simp only [bottleStep] at h
    split at h
    · exact Except.noConfusion h
    · obtain ⟨hbtc, hd⟩ := consumeBottles_ok st pid _ mp now cb st2 btc h
      rcases hd with h1 | ⟨b, n, hbn, hn, hres, hge, hst⟩
      · exact Or.inl h1
      · exact Or.inr ⟨b, n, hn, by rw [hbtc, hbn], hres, hge, hst⟩
  | none =>
    simp only [bottleStep] at h
    split at h
    · split at h
      · obtain ⟨hbtc, hd⟩ := consumeBottles_ok st pid _ mp now cb st2 btc h
        rcases hd with h1 | ⟨b, n, hbn, hn, hres, hge, hst⟩
        · exact Or.inl h1
        · exact Or.inr ⟨b, n, hn, by rw [hbtc, hbn], hres, hge, hst⟩
      · injection h with h2
        injection h2 with ha hb
        exact Or.inl ha.symm
    · injection h with h2
      injection h2 with ha hb
      exact Or.inl ha.symm

theorem bottleStep_error (st : DBState) (pid : Int) (qty : ℚ)
    (mp : Option ProductSource) (ub : Bool) (bu : Option Int) (now : Int)
    (cb : Option Int) (e : OrderError)
    (h : bottleStep st pid qty mp ub bu now cb = .error e) :
    e = .invalidBottlesUsed ∨ e = .insufficientBottleStock := by
  cases bu with
  | some b0 =>
    simp only [bottleStep] at h
    split at h
    · injection h with h2
      exact Or.inl h2.symm
    · exact Or.inr (consumeBottles_error st pid _ mp now cb e h)
  | none =>
    simp only [bottleStep] at h
    split at h
    · split at h
      · exact Or.inr (consumeBottles_error st pid _ mp now cb e h)
      · exact Except.noConfusion h
    · exact Except.noConfusion h

theorem recordOrderTx_ok (st : DBState) (pid : Int) (qty : ℚ) (pm : String)
    (od : Option OrderDateParse) (cb : Option Int) (ub : Bool)
    (bu : Option Int) (bp : ℚ) (cts : Option ClientParse) (now : Int)
    (st2 : DBState) (sale : Sale)
    (h : recordOrderTx st pid qty pm od cb ub bu bp cts now = .ok (st2, sale)) :
    ∃ prod ts st1 stB btc,
      findProd st.products pid = some prod ∧
      resolveTimestamp cts od now = .ok ts ∧
      stockStep st pid qty (findMap st.product_sources pid) now cb = .ok st1 ∧
      bottleStep st1 pid qty (findMap st.product_sources pid) ub bu now cb =
        .ok (stB, btc) ∧
      st2.products = stB.products ∧ st2.sources = stB.sources ∧
      st2.product_sources = stB.product_sources ∧
      st2.inventory = stB.inventory ∧ st2.movements = stB.movements ∧
      st2.sales = stB.sales ++ [sale] ∧
      sale = ⟨pid, prod.name, qty, prod.unit_price,
        (if ub ∧ 0 < bp then
          prod.unit_price * qty + bp * ((bottlesCountOf bu qty : Int) : ℚ)
        else prod.unit_price * qty),
        pm, ts, cb, btc.getD 0, (if ub then bp else 0), cts⟩ := by
  simp only [recordOrderTx] at h
  split at h
  · exact Except.noConfusion h
  · rename_i prod hp
    split at h
    · exact Except.noConfusion h
    · rename_i ts ht
      split at h
      · exact Except.noConfusion h
      · rename_i st1 hs
        split at h
        · exact Except.noConfusion h
        · rename_i stB btc hb
          injection h with h2
          injection h2 with hA hB
          refine ⟨prod, ts, st1, stB, btc, hp, ht, hs, hb, ?_⟩
          rw [← hA, ← hB]
          exact ⟨rfl, rfl, rfl, rfl, rfl, rfl, rfl⟩

theorem record_order_error_state (st : DBState) (pid : Int) (qty : ℚ)
    (pm : String) (od : Option OrderDateParse) (cb : Option Int) (ub : Bool)
    (bu : Option Int) (bp : ℚ) (cts : Option ClientParse) (now : Int)
    (st2 : DBState) (e : OrderError)
    (h : record_order st pid qty pm od cb ub bu bp cts now = (st2, .error e)) :
    st2 = st := by
  simp only [record_order] at h
  split at h
  · injection h with h1 h2
    exact h1.symm
  · split at h
    · rename_i stx sale hx
      injection h with h1 h2
      exact Except.noConfusion h2
    · injection h with h1 h2
      exact h1.symm

theorem record_order_ok_tx (st : DBState) (pid : Int) (qty : ℚ)
    (pm : String) (od : Option OrderDateParse) (cb : Option Int) (ub : Bool)
    (bu : Option Int) (bp : ℚ) (cts : Option ClientParse) (now : Int)
    (st2 : DBState) (sale : Sale)
    (h : record_order st pid qty pm od cb ub bu bp cts now = (st2, .ok sale)) :
    recordOrderTx st pid qty pm od cb ub bu bp cts now = .ok (st2, sale) ∧
    ¬ qty ≤ 0 := by
  simp only [record_order] at h
  split at h
  · injection h with h1 h2
    exact Except.noConfusion h2
  · rename_i hq
    split at h
    · rename_i stx sale1 hx
      injection h with h1 h2
      injection h2 with h3
      rw [hx, h1, h3]
      exact ⟨rfl, hq⟩
    · injection h with h1 h2
      exact Except.noConfusion h2

theorem recordOrderTx_error_cases (st : DBState) (pid : Int) (qty : ℚ)
    (pm : String) (od : Option OrderDateParse) (cb : Option Int) (ub : Bool)
    (bu : Option Int) (bp : ℚ) (cts : Option ClientParse) (now : Int)
    (e : OrderError)
    (h : recordOrderTx st pid qty pm od cb ub bu bp cts now = .error e) :
    e = .productNotFound ∨
    resolveTimestamp cts od now = .error e ∨
    e = .insufficientStock ∨ e = .invalidBottlesUsed ∨
    e = .insufficientBottleStock := by
  simp only [recordOrderTx] at h
  split at h
  · injection h with h2
    exact Or.inl h2.symm
  · rename_i prod hp
    split at h
    · rename_i e2 ht
      injection h with h2
      rw [← h2]
      exact Or.inr (Or.inl ht)
    · rename_i ts ht
      split at h
      · rename_i e2 hs
        injection h with h2
        rw [← h2]
        exact Or.inr (Or.inr (Or.inl
          (stockStep_error st pid qty (findMap st.product_sources pid) now cb e2 hs)))
      · rename_i st1 hs
        split at h
        · rename_i e2 hb
          injection h with h2
          rw [← h2]
          rcases bottleStep_error st1 pid qty (findMap st.product_sources pid)
              ub bu now cb e2 hb with h3 | h3
          · exact Or.inr (Or.inr (Or.inr (Or.inl h3)))
          · exact Or.inr (Or.inr (Or.inr (Or.inr h3)))
        · exact Except.noConfusion h

theorem record_order_error_cases (st : DBState) (pid : Int) (qty : ℚ)
    (pm : String) (od : Option OrderDateParse) (cb : Option Int) (ub : Bool)
    (bu : Option Int) (bp : ℚ) (cts : Option ClientParse) (now : Int)
    (st2 : DBState) (e : OrderError)
    (h : record_order st pid qty pm od cb ub bu bp cts now = (st2, .error e)) :
    e = .invalidQuantity ∨ e = .productNotFound ∨
    resolveTimestamp cts od now = .error e ∨
    e = .insufficientStock ∨ e = .invalidBottlesUsed ∨
    e = .insufficientBottleStock := by
  simp only [record_order] at h
  split at h
  · injection h with h1 h2
    injection h2 with h3
    exact Or.inl h3.symm
  · split at h
    · rename_i stx sale hx
      injection h with h1 h2
      exact Except.noConfusion h2
    · rename_i e2 hx
      injection h with h1 h2
      injection h2 with h3
      rw [← h3]
      exact Or.inr (recordOrderTx_error_cases st pid qty pm od cb ub bu bp cts
        now e2 hx)

theorem movementSum_single (k : String) (rid : Int) (mv : Movement) :
    movementSum k rid [mv] =
      if (mv.kind == k && mv.ref_id == rid) = true then mv.delta else 0 := by
  rw [movementSum_cons, movementSum_nil, add_zero]

theorem kind_src_src : (("source" : String) == "source") = true := by decide

theorem kind_inv_inv : (("inventory" : String) == "inventory") = true := by decide

theorem kind_src_inv : (("source" : String) == "inventory") = false := by decide

theorem kind_inv_src : (("inventory" : String) == "source") = false := by decide

theorem findSrc_append_single (srcs : List Source) (x : Source) (sid : Int)
    (h : findSrc srcs sid = none) :
    findSrc (srcs ++ [x]) sid = if x.id == sid then some x else none := by
  have h2 : srcs.find? (fun s => s.id == sid) = none := h
  show (srcs ++ [x]).find? (fun s => s.id == sid) = _
  rw [List.find?_append, h2]
  cases hx : (x.id == sid) <;> simp [List.find?, hx]

theorem findSrc_append_of_found (srcs : List Source) (x r : Source) (sid : Int)
    (h : findSrc srcs sid = some r) : findSrc (srcs ++ [x]) sid = some r := by
  have h2 : srcs.find? (fun s => s.id == sid) = some r := h
  show (srcs ++ [x]).find? (fun s => s.id == sid) = _
  rw [List.find?_append, h2]
  rfl

theorem invQtyOptL_append_ne (inv : List InventoryRecord) (x : InventoryRecord)
    (p : Int) (hne : x.product_id ≠ p) :
    invQtyOptL (inv ++ [x]) p = invQtyOptL inv p := by
  unfold invQtyOptL
  cases hp : findInv inv p with
  | some r => rw [findInv_append_of_found inv x r p hp]
  | none =>
    rw [findInv_append_single inv x p hp]
    have hf : (x.product_id == p) = false := by
      simp [beq_eq_false_iff_ne]
      exact hne
    simp [hf]

theorem srcQtyOptL_append_ne (srcs : List Source) (x : Source) (sid : Int)
    (hne : x.id ≠ sid) :
    srcQtyOptL (srcs ++ [x]) sid = srcQtyOptL srcs sid := by
  unfold srcQtyOptL
  cases hp : findSrc srcs sid with
  | some r => rw [findSrc_append_of_found srcs x r sid hp]
  | none =>
    rw [findSrc_append_single srcs x sid hp]
    have hf : (x.id == sid) = false := by
      simp [beq_eq_false_iff_ne]
      exact hne
    simp [hf]

/-- C9: for every order with quantity ≤ 0, record_order fails with
InvalidQuantity and the state is unchanged, for every state — in particular
the same failure occurs whether or not the product, its source mapping or any
stock row exists, so no product, source or inventory read influences the
outcome and no stored state changes. -/
theorem c9_invalid_quantity (st : DBState) (pid : Int) (qty : ℚ) (pm : String)
    (od : Option OrderDateParse) (cb : Option Int) (ub : Bool)
    (bu : Option Int) (bp : ℚ) (cts : Option ClientParse) (now : Int)
    (hq : qty ≤ 0) :
    record_order st pid qty pm od cb ub bu bp cts now =
      (st, .error .invalidQuantity) := by
  simp only [record_order, if_pos hq]

theorem c9_witness :
    (0 : ℚ) ≤ 0 ∧
    record_order ⟨[], [], [], [], [], []⟩ 1 0 "Cash" none none false none 0
      none 0 = (⟨[], [], [], [], [], []⟩, .error .invalidQuantity) :=
  ⟨le_refl 0,
    c9_invalid_quantity ⟨[], [], [], [], [], []⟩ 1 0 "Cash" none none false
      none 0 none 0 (le_refl 0)⟩

/-- C4: adjust_inventory (resp. adjust_source_quantity) adds delta to the
current stored quantity (a missing record counting as 0), returns the new
quantity, creates the record only when the result is non-negative, and fails
with InsufficientStock leaving the state unchanged exactly when the resulting
quantity would be negative. -/
theorem c4_adjust_ops (st : DBState) (pid sid : Int) (delta : ℚ) (now : Int) :
    (invQtyD st.inventory pid + delta < 0 →
      adjust_inventory st pid delta now = (st, .error .insufficientStock)) ∧
    (0 ≤ invQtyD st.inventory pid + delta →
      (adjust_inventory st pid delta now).2 =
        .ok (invQtyD st.inventory pid + delta) ∧
      invQtyOptL (adjust_inventory st pid delta now).1.inventory pid =
        some (invQtyD st.inventory pid + delta) ∧
      (∀ p, p ≠ pid →
        invQtyOptL (adjust_inventory st pid delta now).1.inventory p =
          invQtyOptL st.inventory p)) ∧
    (srcQtyD st.sources sid + delta < 0 →
      adjust_source_quantity st sid delta now =
        (st, .error .insufficientStock)) ∧
    (0 ≤ srcQtyD st.sources sid + delta →
      (adjust_source_quantity st sid delta now).2 =
        .ok (srcQtyD st.sources sid + delta) ∧
      srcQtyOptL (adjust_source_quantity st sid delta now).1.sources sid =
        some (srcQtyD st.sources sid + delta) ∧
      (∀ sid2, sid2 ≠ sid →
        srcQtyOptL (adjust_source_quantity st sid delta now).1.sources sid2 =
          srcQtyOptL st.sources sid2)) := by
  refine ⟨?_, ?_, ?_, ?_⟩
  · intro hlt
    cases hf : findInv st.inventory pid with
    | none =>
      have hv : invQtyD st.inventory pid = 0 := by
        simp [invQtyD, invQtyOptL, hf]
      rw [hv, zero_add] at hlt
      simp only [adjust_inventory, hf, if_pos hlt]
    | some r =>
      have hv : invQtyD st.inventory pid = r.quantity := by
        simp [invQtyD, invQtyOptL, hf]
      rw [hv] at hlt
      simp only [adjust_inventory, hf, if_pos hlt]
  · intro hge
    cases hf : findInv st.inventory pid with
    | none =>
      have hv : invQtyD st.inventory pid = 0 := by
        simp [invQtyD, invQtyOptL, hf]
      rw [hv, zero_add] at hge ⊢
      have hnl : ¬ delta < 0 := not_lt.2 hge
      have hres : adjust_inventory st pid delta now =
          (⟨st.products, st.sources, st.product_sources,
            st.inventory ++ [⟨pid, delta, now⟩], st.movements, st.sales⟩,
            .ok delta) := by
        simp only [adjust_inventory, hf, if_neg hnl]
      rw [hres]
      refine ⟨rfl, ?_, ?_⟩
      · unfold invQtyOptL
        rw [findInv_append_single st.inventory _ pid hf]
        simp
      · intro p hp
        exact invQtyOptL_append_ne st.inventory _ p (fun he => hp he.symm)
    | some r =>
      have hv : invQtyD st.inventory pid = r.quantity := by
        simp [invQtyD, invQtyOptL, hf]
      rw [hv] at hge ⊢
      have hnl : ¬ r.quantity + delta < 0 := not_lt.2 hge
      have hres : adjust_inventory st pid delta now =
          (⟨st.products, st.sources, st.product_sources,
            updInv st.inventory pid (r.quantity + delta) now, st.movements,
            st.sales⟩, .ok (r.quantity + delta)) := by
        simp only [adjust_inventory, hf, if_neg hnl]
      rw [hres]
      refine ⟨rfl, ?_, ?_⟩
      · rw [invQtyOptL_updInv_self]
        simp [invQtyOptL, hf]
      · intro p hp
        exact invQtyOptL_updInv_ne st.inventory pid _ now p hp
  · intro hlt
    cases hf : findSrc st.sources sid with
    | none =>
      have hv : srcQtyD st.sources sid = 0 := by
        simp [srcQtyD, srcQtyOptL, hf]
      rw [hv, zero_add] at hlt
      simp only [adjust_source_quantity, hf, if_pos hlt]
    | some r =>
      have hv : srcQtyD st.sources sid = r.quantity := by
        simp [srcQtyD, srcQtyOptL, hf]
      rw [hv] at hlt
      simp only [adjust_source_quantity, hf, if_pos hlt]
  · intro hge
    cases hf : findSrc st.sources sid with
    | none =>
      have hv : srcQtyD st.sources sid = 0 := by
        simp [srcQtyD, srcQtyOptL, hf]
      rw [hv, zero_add] at hge ⊢
      have hnl : ¬ delta < 0 := not_lt.2 hge
      have hres : adjust_source_quantity st sid delta now =
          (⟨st.products, st.sources ++ [⟨sid, "source", "L", delta, now⟩],
            st.product_sources, st.inventory, st.movements, st.sales⟩,
            .ok delta) := by
        simp only [adjust_source_quantity, hf, if_neg hnl]
      rw [hres]
      refine ⟨rfl, ?_, ?_⟩
      · unfold srcQtyOptL
        rw [findSrc_append_single st.sources _ sid hf]
        simp
      · intro sid2 hsid
        exact srcQtyOptL_append_ne st.sources _ sid2 (fun he => hsid he.symm)
    | some r =>
      have hv : srcQtyD st.sources sid = r.quantity := by
        simp [srcQtyD, srcQtyOptL, hf]
      rw [hv] at hge ⊢
      have hnl : ¬ r.quantity + delta < 0 := not_lt.2 hge
      have hres : adjust_source_quantity st sid delta now =
          (⟨st.products, updSrcQty st.sources sid (r.quantity + delta) now,
            st.product_sources, st.inventory, st.movements, st.sales⟩,
            .ok (r.quantity + delta)) := by
        simp only [adjust_source_quantity, hf, if_neg hnl]
      rw [hres]
      refine ⟨rfl, ?_, ?_⟩
      · rw [srcQtyOptL_upd_self]
        simp [srcQtyOptL, hf]
      · intro sid2 hsid
        exact srcQtyOptL_upd_ne st.sources sid _ now sid2 hsid

theorem c4_witness :
    (adjust_inventory stC4 1 (-7) 5).2 = .ok (invQtyD stC4.inventory 1 + (-7)) ∧
    adjust_source_quantity stC4 1 (-200) 5 = (stC4, .error .insufficientStock) := by
  have h1 : invQtyD stC4.inventory 1 = 7 := rfl
  have h2 : srcQtyD stC4.sources 1 = 100 := rfl
  constructor
  · exact ((c4_adjust_ops stC4 1 1 (-7) 5).2.1 (by rw [h1]; norm_num)).1
  · exact (c4_adjust_ops stC4 1 1 (-200) 5).2.2.1 (by rw [h2]; norm_num)

/-- C3: for an otherwise-valid order (existing product, positive quantity,
successfully resolved timestamp), when the mapped source quantity minus
quantity times factor would be negative — or, with no mapping, when the
inventory quantity (missing row = 0) minus quantity would be negative —
record_order fails with InsufficientStock and returns the initial state
unchanged: no quantity is clamped and no Order row is created. -/
theorem c3_insufficient_stock (st : DBState) (pid : Int) (qty : ℚ)
    (pm : String) (od : Option OrderDateParse) (cb : Option Int) (ub : Bool)
    (bu : Option Int) (bp : ℚ) (cts : Option ClientParse) (now : Int)
    (prod : Product) (t : Int) (hp : findProd st.products pid = some prod)
    (hq : 0 < qty) (ht : resolveTimestamp cts od now = .ok t) :
    (∀ m, findMap st.product_sources pid = some m →
      srcQtyD st.sources m.source_id - qty * m.factor < 0 →
      record_order st pid qty pm od cb ub bu bp cts now =
        (st, .error .insufficientStock)) ∧
    (findMap st.product_sources pid = none →
      invQtyD st.inventory pid - qty < 0 →
      record_order st pid qty pm od cb ub bu bp cts now =
        (st, .error .insufficientStock)) := by
  constructor
  · intro m hm hlt
    have hss : stockStep st pid qty (findMap st.product_sources pid) now cb =
        .error .insufficientStock := by
      rw [hm]
      simp only [stockStep, if_pos hlt]
    have htx : recordOrderTx st pid qty pm od cb ub bu bp cts now =
        .error .insufficientStock := by
      simp only [recordOrderTx, hp, ht, hss]
    simp only [record_order, if_neg (not_le.2 hq), htx]
  · intro hm hlt
    have hss : stockStep st pid qty (findMap st.product_sources pid) now cb =
        .error .insufficientStock := by
      rw [hm]
      simp only [stockStep, if_pos hlt]
    have htx : recordOrderTx st pid qty pm od cb ub bu bp cts now =
        .error .insufficientStock := by
      simp only [recordOrderTx, hp, ht, hss]
    simp only [record_order, if_neg (not_le.2 hq), htx]

theorem c3_witness :
    record_order stC3 1 2000 "Cash" none none false none 0 none 0 =
      (stC3, .error .insufficientStock) :=
  (c3_insufficient_stock stC3 1 2000 "Cash" none none false none 0 none 0
    ⟨1, "5L water", 40⟩ 0 rfl (by norm_num) rfl).1 ⟨1, 1, 5⟩ rfl
    (by
      have h2 : srcQtyD stC3.sources (1 : Int) = 8990 := rfl
      show srcQtyD stC3.sources (1 : Int) - 2000 * (5 : ℚ) < 0
      rw [h2]
      norm_num)

/-- C6: when the supplied client timestamp parses, the resolved order
timestamp is taken from it and the order-date string is ignored (record_order
is literally independent of it); an offset-aware client timestamp is
converted to UTC as clock minus offset, and a naive one is taken as already
UTC — both then subject only to the future check. -/
theorem c6_client_timestamp_priority (st : DBState) (pid : Int) (qty : ℚ)
    (pm : String) (od od2 : Option OrderDateParse) (cb : Option Int)
    (ub : Bool) (bu : Option Int) (bp : ℚ) (x : ClientTS) (now : Int) :
    record_order st pid qty pm od cb ub bu bp (some (.parsed x)) now =
      record_order st pid qty pm od2 cb ub bu bp (some (.parsed x)) now ∧
    (∀ c o : Int, resolveTimestamp (some (.parsed (.aware c o))) od now =
      (if now < c - o then .error .futureOrderDate else .ok (c - o))) ∧
    (∀ c : Int, resolveTimestamp (some (.parsed (.naive c))) od now =
      (if now < c then .error .futureOrderDate else .ok c)) := by
  refine ⟨?_, fun c o => rfl, fun c => rfl⟩
  have hres : resolveTimestamp (some (.parsed x)) od now =
      resolveTimestamp (some (.parsed x)) od2 now := by
    cases x <;> rfl
  simp only [record_order, recordOrderTx, hres]

/-- C7 counterexample: with no client timestamp and an order-date string that
parses neither as a date-time nor as a bare date, record_order does not fall
back to the server time — it fails with InvalidOrderDate. -/
theorem c7_counterexample :
    record_order stC7 1 1 "Cash" (some .bad) none false none 0 none 0 =
      (stC7, .error .invalidOrderDate) := rfl

/-- C7 (amended): when the client timestamp is absent or unparsable and the
order-date string is absent, the resolved timestamp is the current server
time and no date-related failure occurs; but when an order-date string is
supplied and parses neither way, record_order fails with InvalidOrderDate
(state unchanged) instead of falling back to server time. -/
theorem c7_date_fallback_amended (st : DBState) (pid : Int) (qty : ℚ)
    (pm : String) (cb : Option Int) (ub : Bool) (bu : Option Int) (bp : ℚ)
    (cts : Option ClientParse) (now : Int)
    (hc : parseClientTS cts = none) :
    resolveTimestamp cts none now = .ok now ∧
    (∀ st2 res,
      record_order st pid qty pm none cb ub bu bp cts now = (st2, res) →
      res ≠ .error .invalidOrderDate ∧ res ≠ .error .futureOrderDate ∧
      ∀ sale, res = .ok sale → sale.timestamp = now) ∧
    (∀ prod, findProd st.products pid = some prod → 0 < qty →
      record_order st pid qty pm (some .bad) cb ub bu bp cts now =
        (st, .error .invalidOrderDate)) := by
  have hrt : resolveTimestamp cts none now = .ok now := by
    simp only [resolveTimestamp, candidateTs, hc]
  refine ⟨hrt, ?_, ?_⟩
  · intro st2 res h
    cases res with
    | ok sale =>
      refine ⟨by simp, by simp, ?_⟩
      intro sale2 hs
      injection hs with hs2
      obtain ⟨htx, hq⟩ := record_order_ok_tx st pid qty pm none cb ub bu bp
        cts now st2 sale h
      obtain ⟨prod, ts, st1, stB, btc, hp, ht, hss, hbs, hP, hS, hPS, hI, hM,
        hSales, hsale⟩ := recordOrderTx_ok st pid qty pm none cb ub bu bp cts
          now st2 sale htx
      rw [hrt] at ht
      injection ht with ht2
      rw [← hs2, hsale, ← ht2]
    | error e =>
      rcases record_order_error_cases st pid qty pm none cb ub bu bp cts now
          st2 e h with he | he | he | he | he | he
      · rw [he]
        exact ⟨by simp, by simp, by simp⟩
      · rw [he]
        exact ⟨by simp, by simp, by simp⟩
      · rw [hrt] at he
        exact Except.noConfusion he
      · rw [he]
        exact ⟨by simp, by simp, by simp⟩
      · rw [he]
        exact ⟨by simp, by simp, by simp⟩
      · rw [he]
        exact ⟨by simp, by simp, by simp⟩
  · intro prod hp hq
    have hbad : resolveTimestamp cts (some .bad) now =
        .error .invalidOrderDate := by
      simp only [resolveTimestamp, candidateTs, hc]
    have htx : recordOrderTx st pid qty pm (some .bad) cb ub bu bp cts now =
        .error .invalidOrderDate := by
      simp only [recordOrderTx, hp, hbad]
    simp only [record_order, if_neg (not_le.2 hq), htx]

theorem c7_witness :
    resolveTimestamp none none 5 = .ok 5 ∧
    record_order stC7 1 1 "Cash" (some .bad) none false none 0
      (some .unparsable) 0 = (stC7, .error .invalidOrderDate) := by
  constructor
  · exact (c7_date_fallback_amended stC7 1 1 "Cash" none false none 0 none 5
      rfl).1
  · exact (c7_date_fallback_amended stC7 1 1 "Cash" none false none 0
      (some .unparsable) 0 rfl).2.2 ⟨1, "5L water", 40⟩ rfl (by norm_num)

/-- C10 counterexample: an offset-aware order-date string denoting a future
instant (clock 100000 at offset +10800, i.e. UTC instant 89200 > now = 0)
does not make record_order fail with FutureOrderDate — the naive/aware
comparison at the future check raises instead, although every other field
is valid. -/
theorem c10_counterexample :
    record_order stC10 1 1 "Cash" (some (.fullAware 100000 10800)) none false
      none 0 none 0 = (stC10, .error .naiveAwareCompare) ∧
    (Except.error .naiveAwareCompare : Except OrderError Sale) ≠
      .error .futureOrderDate ∧
    (0 : Int) < 100000 - 10800 :=
  ⟨rfl, by simp, by decide⟩

/-- C10 (amended): whenever the timestamp candidate resolved from the client
timestamp or the order-date string is a naive datetime — which covers every
client-timestamp resolution, naive full order-date parses and bare dates —
a candidate strictly later than the current server time makes record_order
fail with FutureOrderDate (state unchanged) for every stock configuration,
provided only that the pre-date checks pass (product exists, quantity
positive), and a candidate equal to or earlier than the server time resolves
successfully so that record_order never returns FutureOrderDate; an
offset-aware full order-date parse instead always fails with the naive/aware
comparison TypeError, past or future alike, never with FutureOrderDate. -/
theorem c10_future_date_amended (st : DBState) (pid : Int) (qty : ℚ)
    (pm : String) (od : Option OrderDateParse) (cb : Option Int) (ub : Bool)
    (bu : Option Int) (bp : ℚ) (cts : Option ClientParse) (now t : Int) :
    (candidateTs cts od now = .ok (some (.naiveTs t)) → now < t →
      resolveTimestamp cts od now = .error .futureOrderDate ∧
      ∀ prod, findProd st.products pid = some prod → 0 < qty →
        record_order st pid qty pm od cb ub bu bp cts now =
          (st, .error .futureOrderDate)) ∧
    (candidateTs cts od now = .ok (some (.naiveTs t)) → t ≤ now →
      resolveTimestamp cts od now = .ok t ∧
      ∀ st2 res,
        record_order st pid qty pm od cb ub bu bp cts now = (st2, res) →
        res ≠ .error .futureOrderDate) ∧
    (∀ c o : Int, parseClientTS cts = none → od = some (.fullAware c o) →
      resolveTimestamp cts od now = .error .naiveAwareCompare ∧
      ∀ prod, findProd st.products pid = some prod → 0 < qty →
        record_order st pid qty pm od cb ub bu bp cts now =
          (st, .error .naiveAwareCompare)) := by
  refine ⟨?_, ?_, ?_⟩
  · intro hc hlt
    have hrt : resolveTimestamp cts od now = .error .futureOrderDate := by
      simp only [resolveTimestamp, hc, if_pos hlt]
    refine ⟨hrt, ?_⟩
    intro prod hp hq
    have htx : recordOrderTx st pid qty pm od cb ub bu bp cts now =
        .error .futureOrderDate := by
      simp only [recordOrderTx, hp, hrt]
    simp only [record_order, if_neg (not_le.2 hq), htx]
  · intro hc hle
    have hrt : resolveTimestamp cts od now = .ok t := by
      simp only [resolveTimestamp, hc, if_neg (not_lt.2 hle)]
    refine ⟨hrt, ?_⟩
    intro st2 res h
    cases res with
    | ok sale => simp
    | error e =>
      rcases record_order_error_cases st pid qty pm od cb ub bu bp cts now
          st2 e h with he | he | he | he | he | he
      · rw [he]
        simp
      · rw [he]
        simp
      · rw [hrt] at he
        exact Except.noConfusion he
      · rw [he]
        simp
      · rw [he]
        simp
      · rw [he]
        simp
  · intro c o hcl hod
    have hrt : resolveTimestamp cts od now = .error .naiveAwareCompare := by
      rw [hod]
      simp only [resolveTimestamp, candidateTs, hcl]
    refine ⟨hrt, ?_⟩
    intro prod hp hq
    have htx : recordOrderTx st pid qty pm od cb ub bu bp cts now =
        .error .naiveAwareCompare := by
      simp only [recordOrderTx, hp, hrt]
    simp only [record_order, if_neg (not_le.2 hq), htx]

theorem c10_witness :
    record_order stC10 1 1 "Cash" none none false none 0
      (some (.parsed (.naive 100))) 0 = (stC10, .error .futureOrderDate) ∧
    resolveTimestamp (some (.parsed (.naive 100))) none 200 = .ok 100 ∧
    resolveTimestamp none (some (.fullAware 50 3600)) 200 =
      .error .naiveAwareCompare := by
  refine ⟨?_, ?_, ?_⟩
  · exact ((c10_future_date_amended stC10 1 1 "Cash" none none false none 0
      (some (.parsed (.naive 100))) 0 100).1 rfl (by norm_num)).2
      ⟨1, "5L water", 40⟩ rfl (by norm_num)
  · exact ((c10_future_date_amended stC10 1 1 "Cash" none none false none 0
      (some (.parsed (.naive 100))) 200 100).2.1 rfl (by norm_num)).1
  · exact ((c10_future_date_amended stC10 1 1 "Cash"
      (some (.fullAware 50 3600)) none false none 0 none 200 0).2.2 50 3600
      rfl rfl).1

/-- C2 counterexample: set_inventory performs no non-negativity check — on a
state with no stock it stores a caller-supplied negative quantity, so a
committed state can hold a negative InventoryRecord.quantity. -/
theorem c2_counterexample_neg :
    (set_inventory stC2 1 (-3) 0).1.inventory = [⟨1, -3, 0⟩] ∧
    ¬ nonnegState (set_inventory stC2 1 (-3) 0).1 := by
  refine ⟨rfl, ?_⟩
  intro hcon
  have h1 := hcon.2 ⟨1, -3, 0⟩ (by rw [show (set_inventory stC2 1 (-3) 0).1.inventory = [⟨1, -3, 0⟩] from rfl]; exact List.mem_singleton.2 rfl)
  norm_num at h1

/-- C2 (amended): the checked operations — adjust_inventory,
adjust_source_quantity and record_order — preserve non-negativity of every
stored Source.quantity and InventoryRecord.quantity; set_inventory,
update_source and add_source store the caller-supplied quantity without any
check, so they preserve non-negativity only when that supplied quantity is
itself non-negative. -/
theorem c2_nonneg_amended :
    (∀ st pid delta now, nonnegState st →
      nonnegState (adjust_inventory st pid delta now).1) ∧
    (∀ st sid delta now, nonnegState st →
      nonnegState (adjust_source_quantity st sid delta now).1) ∧
    (∀ st pid qty pm od cb ub bu bp cts now, nonnegState st →
      nonnegState (record_order st pid qty pm od cb ub bu bp cts now).1) ∧
    (∀ st pid q now, nonnegState st → 0 ≤ q →
      nonnegState (set_inventory st pid q now).1) ∧
    (∀ st sid nm un qo now, nonnegState st → (∀ q0 ∈ qo, 0 ≤ (q0 : ℚ)) →
      nonnegState (update_source st sid nm un qo now).1) ∧
    (∀ st nm un q now, nonnegState st → 0 ≤ q →
      nonnegState (add_source st nm un q now).1) := by
  refine ⟨?_, ?_, ?_, ?_, ?_, ?_⟩
  · intro st pid delta now hnn
    cases hf : findInv st.inventory pid with
    | none =>
      simp only [adjust_inventory, hf]
      split
      · exact hnn
      · rename_i hnl
        exact ⟨hnn.1, nonnegInv_append_single _ _ hnn.2 (not_lt.1 hnl)⟩
    | some r =>
      simp only [adjust_inventory, hf]
      split
      · exact hnn
      · rename_i hnl
        exact ⟨hnn.1, nonnegInv_updInv _ _ _ _ hnn.2 (not_lt.1 hnl)⟩
  · intro st sid delta now hnn
    cases hf : findSrc st.sources sid with
    | none =>
      simp only [adjust_source_quantity, hf]
      split
      · exact hnn
      · rename_i hnl
        exact ⟨nonnegSrc_append_single _ _ hnn.1 (not_lt.1 hnl), hnn.2⟩
    | some r =>
      simp only [adjust_source_quantity, hf]
      split
      · exact hnn
      · rename_i hnl
        exact ⟨nonnegSrc_updSrcQty _ _ _ _ hnn.1 (not_lt.1 hnl), hnn.2⟩
  · intro st pid qty pm od cb ub bu bp cts now hnn
    rcases hro : record_order st pid qty pm od cb ub bu bp cts now with
      ⟨st2, res⟩
    show nonnegState st2
    cases res with
    | error e =>
      rw [record_order_error_state st pid qty pm od cb ub bu bp cts now st2 e
        hro]
      exact hnn
    | ok sale =>
      obtain ⟨htx, hq⟩ := record_order_ok_tx st pid qty pm od cb ub bu bp cts
        now st2 sale hro
      obtain ⟨prod, ts, st1, stB, btc, hp, ht, hss, hbs, hP, hS, hPS, hI, hM,
        hSales, hsale⟩ := recordOrderTx_ok st pid qty pm od cb ub bu bp cts
          now st2 sale htx
      have h1 : nonnegState st1 := by
        cases hm : findMap st.product_sources pid with
        | some m =>
          rw [hm] at hss
          obtain ⟨hge, hst1⟩ := stockStep_ok_some st pid qty m now cb st1 hss
          rw [hst1]
          exact ⟨nonnegSrc_updSrcQty _ _ _ _ hnn.1 hge, hnn.2⟩
        | none =>
          rw [hm] at hss
          obtain ⟨hge, hst1⟩ := stockStep_ok_none st pid qty now cb st1 hss
          rw [hst1]
          exact ⟨hnn.1, nonnegInv_upsert _ _ _ _ hnn.2 hge⟩
      have h2 : nonnegState stB := by
        rcases bottleStep_ok st1 pid qty (findMap st.product_sources pid) ub
            bu now cb stB btc hbs with hsame |
            ⟨b, n, hn, hbtc, hres, hge, hstB⟩
        · rw [hsame]
          exact h1
        · rw [hstB]
          exact ⟨h1.1, nonnegInv_upsert _ _ _ _ h1.2 hge⟩
      refine ⟨?_, ?_⟩
      · rw [hS]
        exact h2.1
      · rw [hI]
        exact h2.2
  · intro st pid q now hnn hq
    simp only [set_inventory]
    exact ⟨hnn.1, nonnegInv_upsert _ _ _ _ hnn.2 hq⟩
  · intro st sid nm un qo now hnn hq
    simp only [update_source]
    split
    · exact hnn
    · refine ⟨?_, hnn.2⟩
      intro s hs
      obtain ⟨a, ha, hfa⟩ := List.mem_map.1 hs
      rw [← hfa]
      by_cases hc : (a.id == sid) = true
      · rw [if_pos hc]
        show 0 ≤ qo.getD a.quantity
        cases qo with
        | none => exact hnn.1 a ha
        | some q0 => exact hq q0 rfl
      · rw [if_neg hc]
        exact hnn.1 a ha
  · intro st nm un q now hnn hq
    simp only [add_source]
    exact ⟨nonnegSrc_append_single _ _ hnn.1 hq, hnn.2⟩

theorem c2_witness :
    nonnegState stC2 ∧
    nonnegState (adjust_source_quantity stC2 3 50 0).1 ∧
    nonnegState (set_inventory stC2 1 3 0).1 := by
  have h0 : nonnegState stC2 := ⟨by decide, by decide⟩
  refine ⟨h0, ?_, ?_⟩
  · exact c2_nonneg_amended.2.1 stC2 3 50 0 h0
  · exact c2_nonneg_amended.2.2.2.1 stC2 1 3 0 h0 (by norm_num)

/-- C8 counterexample: an order with an explicit container count of 2 on a
state with no product matching any container-name pattern succeeds, records
bottles_used = 2 on the sale, but decrements no container inventory and
appends no container movement — only the single stock movement exists. -/
theorem c8_counterexample :
    (record_order stC8 1 1 "Cash" none none false (some 2) 0 none 0).2 =
      .ok ⟨1, "5L water", 1, 40, 40, "Cash", 0, none, 2, 0, none⟩ ∧
    (record_order stC8 1 1 "Cash" none none false (some 2) 0 none
      0).1.movements = [⟨"inventory", 1, -1, "order:1", 0, none⟩] ∧
    (record_order stC8 1 1 "Cash" none none false (some 2) 0 none
      0).1.inventory = [⟨1, 99, 0⟩] := by
  refine ⟨?_, ?_, ?_⟩ <;>
    norm_num [record_order, recordOrderTx, stockStep, bottleStep,
      consumeBottles, resolveTimestamp, candidateTs, parseClientTS,
      resolveBottlePid, bottleByFactorName, findProd, findMap, findSrc,
      findInv, srcQtyD, srcQtyOptL, invQtyD, invQtyOptL, updSrcQty, updInv,
      upsertInv, stC8, List.find?,
      show likeEmpty "5L water" = false from rfl,
      show "order:" ++ toString (1 : Int) = "order:1" from rfl]

/-- C8 (amended): an explicit bottles_used count takes priority — with a
non-negative explicit count the derivation from the flag and factor is never
consulted; when the count is positive and a container product resolves (by
the factor-derived name or the generic Empty pattern), its direct inventory
is decremented under the non-negative check, failing with the
container-specific InsufficientStock when violated, and an inventory movement
tagged order_bottle is appended; when no container product resolves, the
count is kept for the sale row but no decrement and no movement occurs. -/
theorem c8_container_amended (st : DBState) (pid : Int) (qty : ℚ)
    (mp : Option ProductSource) (ub : Bool) (now : Int) (cb : Option Int) :
    (∀ b0 : Int, 0 ≤ b0 →
      bottleStep st pid qty mp ub (some b0) now cb =
        consumeBottles st pid (some b0) mp now cb) ∧
    (∀ n : Int, 0 < n → ∀ b : Int,
      resolveBottlePid st.products mp = some b →
      (invQtyD st.inventory b - (n : ℚ) < 0 →
        consumeBottles st pid (some n) mp now cb =
          .error .insufficientBottleStock) ∧
      (0 ≤ invQtyD st.inventory b - (n : ℚ) →
        consumeBottles st pid (some n) mp now cb =
          .ok (⟨st.products, st.sources, st.product_sources,
            upsertInv st.inventory b (invQtyD st.inventory b - (n : ℚ)) now,
            st.movements ++
              [⟨"inventory", b, -((n : Int) : ℚ),
                "order_bottle:" ++ toString pid, now, cb⟩],
            st.sales⟩, some n))) ∧
    (∀ n : Int, 0 < n → resolveBottlePid st.products mp = none →
      consumeBottles st pid (some n) mp now cb = .ok (st, some n)) := by
  refine ⟨?_, ?_, ?_⟩
  · intro b0 hb0
    simp only [bottleStep, if_neg (not_lt.2 hb0)]
  · intro n hn b hres
    constructor
    · intro hlt
      simp only [consumeBottles, if_pos hn, hres, if_pos hlt]
    · intro hge
      simp only [consumeBottles, if_pos hn, hres, if_neg (not_lt.2 hge)]
  · intro n hn hres
    simp only [consumeBottles, if_pos hn, hres]

theorem c8_witness :
    consumeBottles stC8b 1 (some 1) (some ⟨1, 1, 5⟩) 0 none =
      .ok (⟨stC8b.products, stC8b.sources, stC8b.product_sources,
        upsertInv stC8b.inventory 2
          (invQtyD stC8b.inventory 2 - ((1 : Int) : ℚ)) 0,
        stC8b.movements ++
          [⟨"inventory", 2, -((1 : Int) : ℚ),
            "order_bottle:" ++ toString (1 : Int), 0, none⟩],
        stC8b.sales⟩, some 1) := by
  have hres : resolveBottlePid stC8b.products (some ⟨1, 1, 5⟩) = some 2 := rfl
  have hv : invQtyD stC8b.inventory 2 = 120 := rfl
  exact ((c8_container_amended stC8b 1 1 (some ⟨1, 1, 5⟩) false 0 none).2.1 1
    (by norm_num) 2 hres).2 (by rw [hv]; norm_num)

/-- C5: in the seeded scenario (product priced 40 mapped with factor 5 to a
source holding 9000, no container options) an order of quantity 2 succeeds
with total 80 = unit price times quantity, the source drops to 8990, exactly
one movement of kind source with delta -10 and reason naming the originating
product is appended, and exactly one Order row with total 80 is created; in
general a successful mapped stock step draws quantity times factor and
records exactly that amount in its movement. -/
theorem c5_order_scenario :
    (record_order stC5 1 2 "Cash" none none false none 0 none 0).2 =
      .ok ⟨1, "5L water", 2, 40, 80, "Cash", 0, none, 0, 0, none⟩ ∧
    (record_order stC5 1 2 "Cash" none none false none 0 none 0).1 =
      ⟨[⟨1, "5L water", 40⟩], [⟨1, "Main Tank", "L", 8990, 0⟩], [⟨1, 1, 5⟩],
        [], [⟨"source", 1, -10, "order:1", 0, none⟩],
        [⟨1, "5L water", 2, 40, 80, "Cash", 0, none, 0, 0, none⟩]⟩ ∧
    (∀ st : DBState, ∀ pid : Int, ∀ qty : ℚ, ∀ m : ProductSource,
      ∀ now : Int, ∀ cb : Option Int, ∀ st2 : DBState,
      stockStep st pid qty (some m) now cb = .ok st2 →
      st2.movements = st.movements ++
        [⟨"source", m.source_id, -(qty * m.factor),
          "order:" ++ toString pid, now, cb⟩] ∧
      srcQtyOptL st2.sources m.source_id =
        (srcQtyOptL st.sources m.source_id).map
          (fun x => x - qty * m.factor)) := by
  refine ⟨?_, ?_, ?_⟩
  · norm_num [record_order, recordOrderTx, stockStep, bottleStep,
      consumeBottles, resolveTimestamp, candidateTs, parseClientTS, findProd,
      findMap, findSrc, findInv, srcQtyD, srcQtyOptL, invQtyD, invQtyOptL,
      updSrcQty, updInv, upsertInv, stC5, List.find?,
      show "order:" ++ toString (1 : Int) = "order:1" from rfl]
  · norm_num [record_order, recordOrderTx, stockStep, bottleStep,
      consumeBottles, resolveTimestamp, candidateTs, parseClientTS, findProd,
      findMap, findSrc, findInv, srcQtyD, srcQtyOptL, invQtyD, invQtyOptL,
      updSrcQty, updInv, upsertInv, stC5, List.find?,
      show "order:" ++ toString (1 : Int) = "order:1" from rfl]
  · intro st pid qty m now cb st2 h
    obtain ⟨hge, hst2⟩ := stockStep_ok_some st pid qty m now cb st2 h
    subst hst2
    refine ⟨rfl, ?_⟩
    rw [srcQtyOptL_upd_self]
    cases hqs : srcQtyOptL st.sources m.source_id with
    | none => rfl
    | some q0 =>
      have hD : srcQtyD st.sources m.source_id = q0 := by
        unfold srcQtyD
        rw [hqs]
        rfl
      simp [hD]

theorem c5_witness :
    (⟨[⟨1, "5L water", 40⟩], [⟨1, "Main Tank", "L", 8990, 0⟩], [⟨1, 1, 5⟩],
      [], [⟨"source", 1, -10, "order:1", 0, none⟩], []⟩ : DBState).movements =
      stC5.movements ++
        [⟨"source", (⟨1, 1, 5⟩ : ProductSource).source_id,
          -((2 : ℚ) * (⟨1, 1, 5⟩ : ProductSource).factor),
          "order:" ++ toString (1 : Int), 0, none⟩] :=
  (c5_order_scenario.2.2 stC5 1 2 ⟨1, 1, 5⟩ 0 none
    ⟨[⟨1, "5L water", 40⟩], [⟨1, "Main Tank", "L", 8990, 0⟩], [⟨1, 1, 5⟩],
      [], [⟨"source", 1, -10, "order:1", 0, none⟩], []⟩
    (by norm_num [stockStep, srcQtyD, srcQtyOptL, findSrc, updSrcQty, stC5,
      List.find?,
      show "order:" ++ toString (1 : Int) = "order:1" from rfl])).1

/-- C1: record_order is all-or-nothing — on any failure the committed state
is exactly the initial state (no Order row, no Movement row, no quantity
change); on success the committed state extends the initial sales by exactly
the returned Order row and the movements by a non-empty block headed by the
stock movement, and every Source and InventoryRecord quantity differs from
its initial value by exactly the net delta its appended movements record, so
the stock decrement and its audit Movement persist in the same committed
state as the Order row. -/
theorem c1_record_order_atomicity (st : DBState) (pid : Int) (qty : ℚ)
    (pm : String) (od : Option OrderDateParse) (cb : Option Int) (ub : Bool)
    (bu : Option Int) (bp : ℚ) (cts : Option ClientParse) (now : Int)
    (st2 : DBState) (res : Except OrderError Sale)
    (h : record_order st pid qty pm od cb ub bu bp cts now = (st2, res)) :
    (∀ e, res = .error e → st2 = st) ∧
    (∀ sale, res = .ok sale →
      ∃ mvs, st2.sales = st.sales ++ [sale] ∧
        st2.movements = st.movements ++ mvs ∧
        mvs.head? = some (expectedStockMv pid qty
          (findMap st.product_sources pid) now cb) ∧
        (∀ sid, srcQtyOptL st2.sources sid =
          (srcQtyOptL st.sources sid).map
            (fun q => q + movementSum "source" sid mvs)) ∧
        (∀ p, invQtyD st2.inventory p =
          invQtyD st.inventory p + movementSum "inventory" p mvs)) := by
  constructor
  · intro e he
    rw [he] at h
    exact record_order_error_state st pid qty pm od cb ub bu bp cts now st2 e h
  · intro sale hs
    rw [hs] at h
    obtain ⟨htx, hq⟩ := record_order_ok_tx st pid qty pm od cb ub bu bp cts
      now st2 sale h
    obtain ⟨prod, ts, st1, stB, btc, hp, ht, hss, hbs, hP, hS, hPS, hI, hM,
      hSales, hsale⟩ := recordOrderTx_ok st pid qty pm od cb ub bu bp cts now
        st2 sale htx
    cases hm : findMap st.product_sources pid with
    | some m =>
      rw [hm] at hss
      obtain ⟨hge, hst1⟩ := stockStep_ok_some st pid qty m now cb st1 hss
      subst hst1
      rcases bottleStep_ok _ pid qty (findMap st.product_sources pid) ub bu
          now cb stB btc hbs with hsame |
          ⟨b, n, hn, hbtc, hres, hbge, hstB⟩
      · have hBsales : stB.sales = st.sales := by rw [hsame]
        have hBmv : stB.movements = st.movements ++
            [⟨"source", m.source_id, -(qty * m.factor),
              "order:" ++ toString pid, now, cb⟩] := by rw [hsame]
        have hBsrc : stB.sources = updSrcQty st.sources m.source_id
            (srcQtyD st.sources m.source_id - qty * m.factor) now := by
          rw [hsame]
        have hBinv : stB.inventory = st.inventory := by rw [hsame]
        refine ⟨[⟨"source", m.source_id, -(qty * m.factor),
          "order:" ++ toString pid, now, cb⟩], ?_, ?_, rfl, ?_, ?_⟩
        · rw [hSales, hBsales]
        · rw [hM, hBmv]
        · intro sid
          rw [hS, hBsrc]
          by_cases hsid : sid = m.source_id
          · rw [hsid, srcQtyOptL_upd_self]
            have hsum : movementSum "source" m.source_id
                [⟨"source", m.source_id, -(qty * m.factor),
                  "order:" ++ toString pid, now, cb⟩] = -(qty * m.factor) := by
              rw [movementSum_single]
              simp [kind_src_src]
            rw [hsum]
            cases hqs : srcQtyOptL st.sources m.source_id with
            | none => rfl
            | some q0 =>
              have hD : srcQtyD st.sources m.source_id = q0 := by
                unfold srcQtyD
                rw [hqs]
                rfl
              show some (srcQtyD st.sources m.source_id - qty * m.factor) =
                some (q0 + -(qty * m.factor))
              rw [hD]
              exact congrArg some (by ring)
          · rw [srcQtyOptL_upd_ne st.sources m.source_id _ now sid hsid]
            have hsum : movementSum "source" sid
                [⟨"source", m.source_id, -(qty * m.factor),
                  "order:" ++ toString pid, now, cb⟩] = 0 := by
              rw [movementSum_single]
              have hf : (m.source_id == sid) = false := by
                simp [beq_eq_false_iff_ne]
                exact fun he => hsid he.symm
              simp [hf]
            rw [hsum]
            exact (map_add_zero_q _).symm
        · intro p
          rw [hI, hBinv]
          have hsum : movementSum "inventory" p
              [⟨"source", m.source_id, -(qty * m.factor),
                "order:" ++ toString pid, now, cb⟩] = 0 := by
            rw [movementSum_single]
            simp [kind_src_inv]
          rw [hsum, add_zero]
      · have hBsales : stB.sales = st.sales := by rw [hstB]
        have hBmv : stB.movements = (st.movements ++
            [⟨"source", m.source_id, -(qty * m.factor),
              "order:" ++ toString pid, now, cb⟩]) ++
            [⟨"inventory", b, -(n : ℚ),
              "order_bottle:" ++ toString pid, now, cb⟩] := by rw [hstB]
        have hBsrc : stB.sources = updSrcQty st.sources m.source_id
            (srcQtyD st.sources m.source_id - qty * m.factor) now := by
          rw [hstB]
        have hBinv : stB.inventory = upsertInv st.inventory b
            (invQtyD st.inventory b - (n : ℚ)) now := by rw [hstB]
        refine ⟨[⟨"source", m.source_id, -(qty * m.factor),
            "order:" ++ toString pid, now, cb⟩,
          ⟨"inventory", b, -(n : ℚ),
            "order_bottle:" ++ toString pid, now, cb⟩], ?_, ?_, rfl, ?_, ?_⟩
        · rw [hSales, hBsales]
        · rw [hM, hBmv, List.append_assoc]
          rfl
        · intro sid
          rw [hS, hBsrc]
          by_cases hsid : sid = m.source_id
          · rw [hsid, srcQtyOptL_upd_self]
            have hsum : movementSum "source" m.source_id
                [⟨"source", m.source_id, -(qty * m.factor),
                  "order:" ++ toString pid, now, cb⟩,
                 ⟨"inventory", b, -(n : ℚ),
                  "order_bottle:" ++ toString pid, now, cb⟩] =
                -(qty * m.factor) := by
              rw [movementSum_cons, movementSum_cons, movementSum_nil]
              simp [kind_src_src, kind_inv_src]
            rw [hsum]
            cases hqs : srcQtyOptL st.sources m.source_id with
            | none => rfl
            | some q0 =>
              have hD : srcQtyD st.sources m.source_id = q0 := by
                unfold srcQtyD
                rw [hqs]
                rfl
              show some (srcQtyD st.sources m.source_id - qty * m.factor) =
                some (q0 + -(qty * m.factor))
              rw [hD]
              exact congrArg some (by ring)
          · rw [srcQtyOptL_upd_ne st.sources m.source_id _ now sid hsid]
            have hsum : movementSum "source" sid
                [⟨"source", m.source_id, -(qty * m.factor),
                  "order:" ++ toString pid, now, cb⟩,
                 ⟨"inventory", b, -(n : ℚ),
                  "order_bottle:" ++ toString pid, now, cb⟩] = 0 := by
              rw [movementSum_cons, movementSum_cons, movementSum_nil]
              have hf : (m.source_id == sid) = false := by
                simp [beq_eq_false_iff_ne]
                exact fun he => hsid he.symm
              simp [hf, kind_inv_src]
            rw [hsum]
            exact (map_add_zero_q _).symm
        · intro p
          rw [hI, hBinv]
          by_cases hpb : p = b
          · rw [hpb, invQtyD_upsert_self]
            have hsum : movementSum "inventory" b
                [⟨"source", m.source_id, -(qty * m.factor),
                  "order:" ++ toString pid, now, cb⟩,
                 ⟨"inventory", b, -(n : ℚ),
                  "order_bottle:" ++ toString pid, now, cb⟩] = -(n : ℚ) := by
              rw [movementSum_cons, movementSum_cons, movementSum_nil]
              simp [kind_src_inv, kind_inv_inv]
            rw [hsum]
            ring
          · rw [invQtyD_upsert_ne st.inventory b _ now p hpb]
            have hsum : movementSum "inventory" p
                [⟨"source", m.source_id, -(qty * m.factor),
                  "order:" ++ toString pid, now, cb⟩,
                 ⟨"inventory", b, -(n : ℚ),
                  "order_bottle:" ++ toString pid, now, cb⟩] = 0 := by
              rw [movementSum_cons, movementSum_cons, movementSum_nil]
              have hb2 : (b == p) = false := by
                simp [beq_eq_false_iff_ne]
                exact fun he => hpb he.symm
              simp [kind_src_inv, hb2]
            rw [hsum, add_zero]
    | none =>
      rw [hm] at hss
      obtain ⟨hge, hst1⟩ := stockStep_ok_none st pid qty now cb st1 hss
      subst hst1
      rcases bottleStep_ok _ pid qty (findMap st.product_sources pid) ub bu
          now cb stB btc hbs with hsame |
          ⟨b, n, hn, hbtc, hres, hbge, hstB⟩
      · have hBsales : stB.sales = st.sales := by rw [hsame]
        have hBmv : stB.movements = st.movements ++
            [⟨"inventory", pid, -qty, "order:" ++ toString pid, now, cb⟩] := by
          rw [hsame]
        have hBsrc : stB.sources = st.sources := by rw [hsame]
        have hBinv : stB.inventory = upsertInv st.inventory pid
            (invQtyD st.inventory pid - qty) now := by rw [hsame]
        refine ⟨[⟨"inventory", pid, -qty, "order:" ++ toString pid, now, cb⟩],
          ?_, ?_, rfl, ?_, ?_⟩
        · rw [hSales, hBsales]
        · rw [hM, hBmv]
        · intro sid
          rw [hS, hBsrc]
          have hsum : movementSum "source" sid
              [⟨"inventory", pid, -qty, "order:" ++ toString pid, now, cb⟩] =
              0 := by
            rw [movementSum_single]
            simp [kind_inv_src]
          rw [hsum]
          exact (map_add_zero_q _).symm
        · intro p
          rw [hI, hBinv]
          by_cases hp2 : p = pid
          · rw [hp2, invQtyD_upsert_self]
            have hsum : movementSum "inventory" pid
                [⟨"inventory", pid, -qty, "order:" ++ toString pid, now,
                  cb⟩] = -qty := by
              rw [movementSum_single]
              simp [kind_inv_inv]
            rw [hsum]
            ring
          · rw [invQtyD_upsert_ne st.inventory pid _ now p hp2]
            have hsum : movementSum "inventory" p
                [⟨"inventory", pid, -qty, "order:" ++ toString pid, now,
                  cb⟩] = 0 := by
              rw [movementSum_single]
              have hf : (pid == p) = false := by
                simp [beq_eq_false_iff_ne]
                exact fun he => hp2 he.symm
              simp [hf]
            rw [hsum, add_zero]
      · have hBsales : stB.sales = st.sales := by rw [hstB]
        have hBmv : stB.movements = (st.movements ++
            [⟨"inventory", pid, -qty, "order:" ++ toString pid, now, cb⟩]) ++
            [⟨"inventory", b, -(n : ℚ),
              "order_bottle:" ++ toString pid, now, cb⟩] := by rw [hstB]
        have hBsrc : stB.sources = st.sources := by rw [hstB]
        have hBinv : stB.inventory = upsertInv
            (upsertInv st.inventory pid (invQtyD st.inventory pid - qty) now)
            b (invQtyD (upsertInv st.inventory pid
              (invQtyD st.inventory pid - qty) now) b - (n : ℚ)) now := by
          rw [hstB]
        refine ⟨[⟨"inventory", pid, -qty, "order:" ++ toString pid, now, cb⟩,
          ⟨"inventory", b, -(n : ℚ),
            "order_bottle:" ++ toString pid, now, cb⟩], ?_, ?_, rfl, ?_, ?_⟩
        · rw [hSales, hBsales]
        · rw [hM, hBmv, List.append_assoc]
          rfl
        · intro sid
          rw [hS, hBsrc]
          have hsum : movementSum "source" sid
              [⟨"inventory", pid, -qty, "order:" ++ toString pid, now, cb⟩,
               ⟨"inventory", b, -(n : ℚ),
                "order_bottle:" ++ toString pid, now, cb⟩] = 0 := by
            rw [movementSum_cons, movementSum_cons, movementSum_nil]
            simp [kind_inv_src]
          rw [hsum]
          exact (map_add_zero_q _).symm
        · intro p
          rw [hI, hBinv]
          by_cases hpb : p = b
          · rw [hpb, invQtyD_upsert_self]
            by_cases hbpid : b = pid
            · rw [hbpid, invQtyD_upsert_self]
              have hsum : movementSum "inventory" pid
                  [⟨"inventory", pid, -qty, "order:" ++ toString pid, now,
                    cb⟩,
                   ⟨"inventory", pid, -(n : ℚ),
                    "order_bottle:" ++ toString pid, now, cb⟩] =
                  -qty + -(n : ℚ) := by
                rw [movementSum_cons, movementSum_cons, movementSum_nil]
                simp [kind_inv_inv]
              rw [hsum]
              ring
            · rw [invQtyD_upsert_ne st.inventory pid _ now b hbpid]
              have hsum : movementSum "inventory" b
                  [⟨"inventory", pid, -qty, "order:" ++ toString pid, now,
                    cb⟩,
                   ⟨"inventory", b, -(n : ℚ),
                    "order_bottle:" ++ toString pid, now, cb⟩] = -(n : ℚ) := by
                rw [movementSum_cons, movementSum_cons, movementSum_nil]
                have hf : (pid == b) = false := by
                  simp [beq_eq_false_iff_ne]
                  exact fun he => hbpid he.symm
                simp [hf, kind_inv_inv]
              rw [hsum]
              ring
          · rw [invQtyD_upsert_ne _ b _ now p hpb]
            by_cases hp2 : p = pid
            · rw [hp2, invQtyD_upsert_self]
              have hb2 : (b == pid) = false := by
                simp [beq_eq_false_iff_ne]
                intro he
                exact hpb (hp2.trans he.symm)
              have hsum : movementSum "inventory" pid
                  [⟨"inventory", pid, -qty, "order:" ++ toString pid, now,
                    cb⟩,
                   ⟨"inventory", b, -(n : ℚ),
                    "order_bottle:" ++ toString pid, now, cb⟩] = -qty := by
                rw [movementSum_cons, movementSum_cons, movementSum_nil]
                simp [kind_inv_inv, hb2]
              rw [hsum]
              ring
            · rw [invQtyD_upsert_ne st.inventory pid _ now p hp2]
              have hf : (pid == p) = false := by
                simp [beq_eq_false_iff_ne]
                exact fun he => hp2 he.symm
              have hb2 : (b == p) = false := by
                simp [beq_eq_false_iff_ne]
                exact fun he => hpb he.symm
              have hsum : movementSum "inventory" p
                  [⟨"inventory", pid, -qty, "order:" ++ toString pid, now,
                    cb⟩,
                   ⟨"inventory", b, -(n : ℚ),
                    "order_bottle:" ++ toString pid, now, cb⟩] = 0 := by
                rw [movementSum_cons, movementSum_cons, movementSum_nil]
                simp [hf, hb2]
              rw [hsum, add_zero]

theorem c1_witness :
    (record_order stC1 1 2 "Cash" none none false none 0 none 0).1.sales =
      stC1.sales ++ [⟨1, "5L water", 2, 40, 80, "Cash", 0, none, 0, 0, none⟩] := by
  have hrun : record_order stC1 1 2 "Cash" none none false none 0 none 0 =
      ((record_order stC1 1 2 "Cash" none none false none 0 none 0).1,
        (record_order stC1 1 2 "Cash" none none false none 0 none 0).2) := rfl
  have h := c1_record_order_atomicity stC1 1 2 "Cash" none none false none 0
    none 0 (record_order stC1 1 2 "Cash" none none false none 0 none 0).1
    (record_order stC1 1 2 "Cash" none none false none 0 none 0).2 hrun
  have hok : (record_order stC1 1 2 "Cash" none none false none 0 none 0).2 =
      .ok ⟨1, "5L water", 2, 40, 80, "Cash", 0, none, 0, 0, none⟩ := by
    norm_num [record_order, recordOrderTx, stockStep, bottleStep,
      consumeBottles, resolveTimestamp, candidateTs, parseClientTS, findProd,
      findMap, findSrc, findInv, srcQtyD, srcQtyOptL, invQtyD, invQtyOptL,
      updSrcQty, updInv, upsertInv, stC1, List.find?,
      show "order:" ++ toString (1 : Int) = "order:1" from rfl]
  obtain ⟨mvs, hsales, hrest⟩ :=
    h.2 ⟨1, "5L water", 2, 40, 80, "Cash", 0, none, 0, 0, none⟩ hok
  exact hsales

end ERP